import Mathlib

/-!
Verification development for the code-contractor-mcp analysis engine.

This file shallowly embeds the analysis core of the repository:
the AST-path outline extraction, element location/replacement and the
regex fallback layer of `CodeAnalyzer.js` (first copy in the file), and
the search-hit classifier of the linter/search module (`_classifyLine`,
`_simpleClassify`, `_isComment`, `_isImportLine`, `_isInStringLiteral`).

Tree-sitter itself is an external library: parse trees are modelled by
the `TSNode` inductive below, and concrete trees used in witnesses are
written out exactly as tree-sitter produces them for the given sources.
JavaScript regular expressions are embedded via a small backtracking
regex engine (`RE`, `matchRE`) with ECMAScript-style greedy/lazy
semantics; each pattern from the source is transliterated node by node.
-/

/-! ### Basic character/string helpers mirroring the JavaScript built-ins -/

/-- JS `\w` character class: `[A-Za-z0-9_]`. -/
def isWordChar (c : Char) : Bool :=
  c.isAlphanum || c = '_'

/-- JS `\s` character class (ASCII part, which is all these sources use). -/
def isJsSpace (c : Char) : Bool :=
  c = ' ' || c = '\t' || c = '\n' || c = '\r' || c = '\x0b' || c = '\x0c'

/-- JS `String.prototype.trim` on the character list. -/
def jsTrimList (l : List Char) : List Char :=
  ((l.dropWhile isJsSpace).reverse.dropWhile isJsSpace).reverse

/-- JS `String.prototype.trim`. -/
def jsTrim (s : String) : String :=
  (jsTrimList s.toList).asString

/-- JS `String.prototype.startsWith`. -/
def jsStartsWith (s pre : String) : Bool :=
  pre.toList.isPrefixOf s.toList

/-- Does `pat` occur as a contiguous substring of `s`? (`String.prototype.includes`). -/
def listIncludes (s pat : List Char) : Bool :=
  match s with
  | [] => pat.isPrefixOf ([] : List Char)
  | _ :: rest => pat.isPrefixOf s || listIncludes rest pat

/-- JS `String.prototype.includes`. -/
def jsIncludes (s pat : String) : Bool :=
  listIncludes s.toList pat.toList

/-- JS `String.prototype.slice(0, n)` (code-unit prefix; sources are ASCII). -/
def strTake (s : String) (n : Nat) : String :=
  (s.toList.take n).asString

/-- JS `String.prototype.slice(n)`. -/
def strDrop (s : String) (n : Nat) : String :=
  (s.toList.drop n).asString

/-- Helper for `jsSplitLines` (structural, so the kernel can evaluate
it; `acc` holds the current line reversed). -/
def splitLinesAux : List Char → List Char → List String
  | [], acc => [acc.reverse.asString]
  | c :: rest, acc =>
    if c = '\n' then acc.reverse.asString :: splitLinesAux rest []
    else splitLinesAux rest (c :: acc)

/-- JS split on the newline separator (`String.prototype.split`). -/
def jsSplitLines (s : String) : List String :=
  splitLinesAux s.toList []

/-- JS joining with the newline separator (`Array.prototype.join`). -/
def jsJoinLines (l : List String) : String :=
  String.intercalate "\n" l

/-! ### A small backtracking regex engine for the embedded JS patterns

Only the constructs actually used by the patterns of the repository are
supported: literals, character classes, `\w`, `\s`, `.`, sequencing,
alternation, greedy/lazy star (from which `+` and `?` are derived),
capturing groups, and the `^`/`$` anchors.  Matching follows the
ECMAScript order of attempts: leftmost match position, left alternative
first, greedy loops try another iteration before the continuation and
stop on an empty-width iteration. -/

inductive RE where
  | eps : RE
  | lit (c : Char) : RE
  | cls (neg : Bool) (cs : List Char) : RE
  | wordc : RE
  | spacec : RE
  | anyc : RE
  | seq (a b : RE) : RE
  | alt (a b : RE) : RE
  | star (lazy : Bool) (a : RE) : RE
  | grp (n : Nat) (a : RE) : RE
  | bos : RE
  | eos : RE
  | wb : RE
deriving Repr

/-- Plus quantifier: `r+` as `r r*`. -/
def rePlus (r : RE) : RE := RE.seq r (RE.star false r)

/-- Optional quantifier `r?` (greedy: try `r` first). -/
def reOpt (r : RE) : RE := RE.alt r RE.eps

/-- Sequence a list of regexes. -/
def reCat (l : List RE) : RE :=
  match l with
  | [] => RE.eps
  | [r] => r
  | r :: rest => RE.seq r (reCat rest)

/-- A literal string as a regex. -/
def reStr (s : String) : RE :=
  reCat (s.toList.map RE.lit)

/-- Capture groups recorded on the success path: (group, start, end). -/
abbrev Caps := List (Nat × Nat × Nat)

/-- CPS backtracking matcher; `fuel` bounds recursion depth (all uses in
this file evaluate on short concrete strings, far below the bound). -/
def matchRE (fuel : Nat) (r : RE) (s : List Char) (i : Nat) (cp : Caps)
    (k : Nat → Caps → Option (Nat × Caps)) : Option (Nat × Caps) :=
  match fuel with
  | 0 => none
  | Nat.succ f =>
    match r with
    | RE.eps => k i cp
    | RE.lit c =>
      match s.get? i with
      | some c2 => if c2 = c then k (i + 1) cp else none
      | none => none
    | RE.cls neg cs =>
      match s.get? i with
      | some c2 => if (cs.contains c2) ≠ neg then k (i + 1) cp else none
      | none => none
    | RE.wordc =>
      match s.get? i with
      | some c2 => if isWordChar c2 then k (i + 1) cp else none
      | none => none
    | RE.spacec =>
      match s.get? i with
      | some c2 => if isJsSpace c2 then k (i + 1) cp else none
      | none => none
    | RE.anyc =>
      match s.get? i with
      | some c2 => if c2 = '\n' ∨ c2 = '\r' then none else k (i + 1) cp
      | none => none
    | RE.seq a b => matchRE f a s i cp (fun j cp2 => matchRE f b s j cp2 k)
    | RE.alt a b =>
      match matchRE f a s i cp k with
      | some res => some res
      | none => matchRE f b s i cp k
    | RE.star lz a =>
      if lz then
        match k i cp with
        | some res => some res
        | none =>
          matchRE f a s i cp (fun j cp2 =>
            if j = i then none else matchRE f (RE.star lz a) s j cp2 k)
      else
        match matchRE f a s i cp (fun j cp2 =>
            if j = i then none else matchRE f (RE.star lz a) s j cp2 k) with
        | some res => some res
        | none => k i cp
    | RE.grp n a => matchRE f a s i cp (fun j cp2 => k j ((n, i, j) :: cp2))
    | RE.bos => if i = 0 then k i cp else none
    | RE.eos => if i = s.length then k i cp else none
    | RE.wb =>
      let before :=
        match i with
        | 0 => false
        | Nat.succ j => match s.get? j with | some c2 => isWordChar c2 | none => false
      let after := match s.get? i with | some c2 => isWordChar c2 | none => false
      if before ≠ after then k i cp else none

/-- Fuel that comfortably dominates the recursion depth needed for the
short concrete lines this file evaluates on. -/
def reFuel (s : List Char) : Nat := 2000 * (s.length + 10)

/-- Leftmost match search (like `String.prototype.match` without the `g`
flag): try each start position left to right.  Structural on `fuel` so
that the kernel can evaluate it; `fuel = s.length + 1` always suffices. -/
def reSearchAux (r : RE) (s : List Char) (fuel i : Nat) : Option (Nat × Nat × Caps) :=
  match fuel with
  | 0 => none
  | Nat.succ f =>
    match matchRE (reFuel s) r s i [] (fun j cp => some (j, cp)) with
    | some (j, cp) => some (i, j, cp)
    | none => if i < s.length then reSearchAux r s f (i + 1) else none

/-- JS `line.match(re)`: leftmost match with captures. -/
def jsMatch (r : RE) (line : String) : Option (Nat × Nat × Caps) :=
  reSearchAux r line.toList (line.toList.length + 1) 0

/-- JS `re.test(line)`. -/
def reTest (r : RE) (line : String) : Bool :=
  (jsMatch r line).isSome

/-- Capture `match[g]` as a string, `none` when the group did not participate. -/
def capStr (line : String) (caps : Caps) (g : Nat) : Option String :=
  match caps.find? (fun e => e.1 = g) with
  | some (_, st, en) => some (((line.toList.drop st).take (en - st)).asString)
  | none => none

example : reTest (reStr "abc") "xxabcy" = true := by decide
example : reTest (RE.seq RE.bos (reStr "ab")) "xab" = false := by decide
example : jsMatch (RE.grp 1 (rePlus RE.wordc)) "  foo(" =
    some (2, 5, [(1, 2, 5)]) := by decide
example : reTest (reCat [RE.bos, reOpt (reStr "pub "), reStr "fn", RE.spacec]) "fn main" = true := by decide

/-! ### Syntax tree model

`TSNode` models a tree-sitter syntax node as consumed by
`CodeAnalyzer.js`: a kind string (`node.type`), the covered source text
(`node.text`), the start/end row/column (`startPosition`/`endPosition`),
the byte span (`startIndex`/`endIndex`) and the ordered children, each
optionally carrying the grammar field name under which
`childForFieldName` finds it.  A mutual inductive is used instead of a
nested `List` so that all traversals are structural and kernel-evaluable. -/

mutual
inductive TSNode where
  | mk (ty text : String) (startRow startCol endRow endCol startIndex endIndex : Nat)
       (kids : TSKids) : TSNode
inductive TSKids where
  | nil : TSKids
  | cons (field : Option String) (child : TSNode) (rest : TSKids) : TSKids
end

def TSNode.ty : TSNode → String
  | .mk t _ _ _ _ _ _ _ _ => t

def TSNode.text : TSNode → String
  | .mk _ tx _ _ _ _ _ _ _ => tx

def TSNode.startRow : TSNode → Nat
  | .mk _ _ r _ _ _ _ _ _ => r

def TSNode.startCol : TSNode → Nat
  | .mk _ _ _ c _ _ _ _ _ => c

def TSNode.endRow : TSNode → Nat
  | .mk _ _ _ _ r _ _ _ _ => r

def TSNode.endCol : TSNode → Nat
  | .mk _ _ _ _ _ c _ _ _ => c

def TSNode.startIndex : TSNode → Nat
  | .mk _ _ _ _ _ _ i _ _ => i

def TSNode.endIndex : TSNode → Nat
  | .mk _ _ _ _ _ _ _ i _ => i

def TSNode.kids : TSNode → TSKids
  | .mk _ _ _ _ _ _ _ _ ks => ks

def TSKids.toList : TSKids → List (Option String × TSNode)
  | .nil => []
  | .cons f c rest => (f, c) :: rest.toList

/-- The child list in order (`node.child(0) … node.child(childCount-1)`). -/
def TSNode.children (n : TSNode) : List TSNode :=
  n.kids.toList.map Prod.snd

/-- Field lookup `node.childForFieldName(field)`. -/
def TSNode.childForFieldName (n : TSNode) (field : String) : Option TSNode :=
  (n.kids.toList.find? (fun e => e.1 = some field)).map Prod.snd

/-- Build a `TSKids` from a list literal. -/
def kidsOf : List (Option String × TSNode) → TSKids
  | [] => .nil
  | (f, c) :: rest => .cons f c (kidsOf rest)

mutual
/-- All nodes of a subtree in pre-order (node before its children). -/
def TSNode.allNodes : TSNode → List TSNode
  | .mk t tx a b c d e f ks => .mk t tx a b c d e f ks :: allNodesKids ks
def allNodesKids : TSKids → List TSNode
  | .nil => []
  | .cons _ c rest => c.allNodes ++ allNodesKids rest
end

/-! ### Outline items (`OutlineEntry` of the spec)

`endLine`, `style`, `exported` and `depth` are `Option`s because the
JavaScript objects carry these properties only on some paths (the regex
fallback emits no `endLine`/`depth`; `exported` is only set by the
export-statement branch; `style` only for arrow/default items). -/

structure OutlineItem where
  type : String
  name : String
  line : Nat
  endLine : Option Nat
  signature : String
  style : Option String
  exported : Option Bool
  depth : Option Nat
deriving Repr, DecidableEq, Inhabited

/-- JS `a || b` on possibly-missing strings: the empty string is falsy. -/
def jsOrStr (a b : Option String) : Option String :=
  match a with
  | some s => if s = "" then b else some s
  | none => b

/-- JS truthiness of a possibly-missing string. -/
def jsTruthyStr (a : Option String) : Bool :=
  match a with
  | some s => !(s = "")
  | none => false

/-- Embeds `_extractSignature(line, type)`: trim, strip a trailing
`\s*\{?\s*$` run, cap at 120 characters (the `type` argument is unused
in the source as well). -/
def extractSignature (line : String) (_ty : String) : String :=
  let sig := jsTrim line
  let rev := sig.toList.reverse
  let rev := rev.dropWhile isJsSpace
  let rev :=
    match rev with
    | c :: rest => if c = '\x7b' then rest else rev
    | [] => rev
  let rev := rev.dropWhile isJsSpace
  let sig := rev.reverse.asString
  if sig.length > 120 then strTake sig 117 ++ "..." else sig

/-- The `getName` helper of `_nodeToOutlineItem`: resolve a named field,
else fall back to the first identifier-like child. -/
def getNameFrom (node : TSNode) (field : String) : Option String :=
  match node.childForFieldName field with
  | some nameNode => some nameNode.text
  | none =>
    (node.children.find? (fun c =>
      c.ty = "identifier" || c.ty = "property_identifier" || c.ty = "type_identifier")).map TSNode.text

mutual
/-- The `findDeclarator` closure inside the lexical-declaration case:
pre-order search for the first `variable_declarator`. -/
def findDeclarator : TSNode → Option TSNode
  | .mk t tx a b c d e f ks =>
    if t = "variable_declarator" then some (.mk t tx a b c d e f ks)
    else findDeclaratorKids ks
def findDeclaratorKids : TSKids → Option TSNode
  | .nil => none
  | .cons _ c rest =>
    if c.ty = "variable_declarator" then some c
    else
      match findDeclarator c with
      | some found => some found
      | none => findDeclaratorKids rest
end

/-- Last child of one of the given kinds (the export-statement declarator
loop keeps overwriting `nameNode`/`valueNode`, so the last match wins). -/
def lastChildOfTypes (n : TSNode) (tys : List String) : Option TSNode :=
  (n.children.filter (fun c => tys.contains c.ty)).getLast?


/-- The declarator loop of the export-statement case: find the first
`variable_declarator` child whose own children supply both an
`identifier` (`nameNode`) and an `arrow_function`/`function_expression`
(`valueNode`); the source keeps overwriting these variables inside its
`k` loop, so the last matching child wins. -/
def exportDeclaratorScan : List TSNode → Option (TSNode × TSNode)
  | [] => none
  | d :: rest =>
    if d.ty = "variable_declarator" then
      let nameNode := lastChildOfTypes d ["identifier"]
      let valueNode := lastChildOfTypes d ["arrow_function", "function_expression"]
      match nameNode, valueNode with
      | some nn, some vn => some (nn, vn)
      | _, _ => exportDeclaratorScan rest
    else exportDeclaratorScan rest

mutual
/-- Embeds `_nodeToOutlineItem(node, lines)`: the per-node-kind dispatch.  The
source is a JS `switch`; a JS switch runs the FIRST matching case, so
the duplicate later cases in the file (`function_definition` again for
Python, `class_declaration`/`method_declaration`/`interface_declaration`
/`enum_declaration` again for Go/Java) are unreachable and the effective
dispatch is the first occurrence of each kind string, embedded here as
an if-chain in source order. -/
def nodeToOutlineItem : TSNode → List String → Option OutlineItem
  | .mk t tx sr sc er ec si ei ks, lines =>
    let node := TSNode.mk t tx sr sc er ec si ei ks
    let startLine := sr + 1
    let endLine := er + 1
    let lineContent := (lines.get? sr).getD ""
    if t = "function_declaration" ∨ t = "function_definition" then
      let name? := jsOrStr (getNameFrom node "name") (getNameFrom node "id")
      if jsTruthyStr name? then
        some { type := "function", name := name?.getD "", line := startLine,
               endLine := some endLine,
               signature := extractSignature lineContent "function",
               style := none, exported := none, depth := none }
      else none
    else if t = "lexical_declaration" ∨ t = "variable_declaration" then
      match findDeclarator node with
      | some declarator =>
        let nameNode :=
          match declarator.childForFieldName "name" with
          | some nn => some nn
          | none => declarator.children.find? (fun ch => ch.ty = "identifier")
        let valueNode :=
          match declarator.childForFieldName "value" with
          | some vn => some vn
          | none => declarator.children.find? (fun ch =>
              ch.ty = "arrow_function" ∨ ch.ty = "function_expression" ∨ ch.ty = "function")
        match nameNode, valueNode with
        | some nn, some vn =>
          if vn.ty = "arrow_function" ∨ vn.ty = "function_expression" ∨ vn.ty = "function" then
            some { type := "function", name := nn.text, line := startLine,
                   endLine := some endLine,
                   signature := extractSignature lineContent "arrow",
                   style := some "arrow", exported := none, depth := none }
          else none
        | _, _ => none
      | none => none
    else if t = "class_declaration" ∨ t = "class_definition" ∨ t = "class" then
      let name? := getNameFrom node "name"
      if jsTruthyStr name? then
        some { type := "class", name := name?.getD "", line := startLine,
               endLine := some endLine,
               signature := extractSignature lineContent "class",
               style := none, exported := none, depth := none }
      else none
    else if t = "method_definition" ∨ t = "method_declaration" then
      let name? := jsOrStr (getNameFrom node "name") (getNameFrom node "key")
      if jsTruthyStr name? then
        some { type := "method", name := name?.getD "", line := startLine,
               endLine := some endLine,
               signature := extractSignature lineContent "method",
               style := none, exported := none, depth := none }
      else none
    else if t = "interface_declaration" then
      let name? := getNameFrom node "name"
      if jsTruthyStr name? then
        some { type := "interface", name := name?.getD "", line := startLine,
               endLine := some endLine,
               signature := extractSignature lineContent "interface",
               style := none, exported := none, depth := none }
      else none
    else if t = "type_alias_declaration" then
      let name? := getNameFrom node "name"
      if jsTruthyStr name? then
        some { type := "type", name := name?.getD "", line := startLine,
               endLine := some endLine,
               signature := extractSignature lineContent "type",
               style := none, exported := none, depth := none }
      else none
    else if t = "enum_declaration" then
      let name? := getNameFrom node "name"
      if jsTruthyStr name? then
        some { type := "enum", name := name?.getD "", line := startLine,
               endLine := some endLine,
               signature := extractSignature lineContent "enum",
               style := none, exported := none, depth := none }
      else none
    else if t = "module_declaration" ∨ t = "namespace_declaration" ∨ t = "ambient_declaration" then
      let name? := getNameFrom node "name"
      if jsTruthyStr name? then
        some { type := "namespace", name := name?.getD "", line := startLine,
               endLine := some endLine,
               signature := extractSignature lineContent "namespace",
               style := none, exported := none, depth := none }
      else none
    else if t = "export_statement" then
      match exportScanKids ks lines startLine endLine lineContent with
      | some item => some item
      | none =>
        match node.children.find? (fun ch => ch.ty = "identifier") with
        | some defaultNode =>
          if jsIncludes lineContent "export default" then
            some { type := "export", name := defaultNode.text, line := startLine,
                   endLine := some endLine, signature := jsTrim lineContent,
                   style := some "default", exported := none, depth := none }
          else none
        | none => none
    else if t = "type_declaration" ∨ t = "type_spec" then
      let name? := getNameFrom node "name"
      if jsTruthyStr name? then
        some { type := "type", name := name?.getD "", line := startLine,
               endLine := some endLine,
               signature := extractSignature lineContent "type",
               style := none, exported := none, depth := none }
      else none
    else if t = "constructor_declaration" then
      some { type := "constructor", name := "constructor", line := startLine,
             endLine := some endLine,
             signature := extractSignature lineContent "constructor",
             style := none, exported := none, depth := none }
    else none

/-- The child loop of the `export_statement` case.  For each child, the
source first tries the lexical-declaration declarator scan, then — in
the same iteration — the substring check for `declaration` and its recursion
(note a `lexical_declaration` also contains the substring
`declaration`, so a declarator scan that finds no arrow value still
recurses into the generic branch). -/
def exportScanKids : TSKids → List String → Nat → Nat → String → Option OutlineItem
  | .nil, _, _, _, _ => none
  | .cons _ child rest, lines, startLine, endLine, lineContent =>
    let step1 : Option OutlineItem :=
      if child.ty = "lexical_declaration" ∨ child.ty = "variable_declaration" then
        match exportDeclaratorScan child.children with
        | some (nn, _) =>
          some { type := "function", name := nn.text, line := startLine,
                 endLine := some endLine,
                 signature := extractSignature lineContent "arrow",
                 style := some "arrow", exported := some true, depth := none }
        | none => none
      else none
    match step1 with
    | some item => some item
    | none =>
      let step2 : Option OutlineItem :=
        if jsIncludes child.ty "declaration" then
          match nodeToOutlineItem child lines with
          | some item => some { item with exported := some true, line := startLine }
          | none => none
        else none
      match step2 with
      | some item => some item
      | none => exportScanKids rest lines startLine endLine lineContent
end

mutual
/-- Embeds `_collectOutlineFromAST`: pre-order traversal pushing items; depth
grows by one below a node that itself produced an item. -/
def collectOutline : TSNode → List String → Nat → List OutlineItem
  | .mk t tx sr sc er ec si ei ks, lines, depth =>
    match nodeToOutlineItem (TSNode.mk t tx sr sc er ec si ei ks) lines with
    | some item => { item with depth := some depth } :: collectOutlineKids ks lines (depth + 1)
    | none => collectOutlineKids ks lines depth
def collectOutlineKids : TSKids → List String → Nat → List OutlineItem
  | .nil, _, _ => []
  | .cons _ c rest, lines, depth =>
    collectOutline c lines depth ++ collectOutlineKids rest lines depth
end

/-- Stable insertion of `x` after all items with `line ≤ x.line`. -/
def insertByLine (x : OutlineItem) : List OutlineItem → List OutlineItem
  | [] => [x]
  | y :: ys => if x.line < y.line then x :: y :: ys else y :: insertByLine x ys

/-- Embeds `outline.sort((a, b) => a.line - b.line)` — a stable ascending sort
(Array.prototype.sort is required to be stable). -/
def sortByLine (l : List OutlineItem) : List OutlineItem :=
  l.foldl (fun acc x => insertByLine x acc) []


/-! ### The regex fallback outline (`_getOutlineWithRegex`)

Each entry below transliterates one pattern of the `patterns`
array of the source, in the exact source order (JS/TS, classes, TS declarations,
methods, Python, Go, Java, Rust, C/C++, PHP, Ruby).  The original JS
literal is quoted above each entry. -/

def wsP : RE := rePlus RE.spacec

def wsS : RE := RE.star false RE.spacec

def reIdG (g : Nat) : RE := RE.grp g (rePlus RE.wordc)

def reAltList : List RE → RE
  | [] => RE.eps
  | [r] => r
  | r :: rest => RE.alt r (reAltList rest)

/-- Optional word: `(?:word\s+)?` -/
def optWordWs (s : String) : RE := reOpt (reCat [reStr s, wsP])

/-- Negated character class. -/
def clsNot (cs : List Char) : RE := RE.cls true cs

/-- Parenthesised argument list: `\([^)]*\)` -/
def reParens : RE := reCat [RE.lit '(', RE.star false (clsNot [')']), RE.lit ')']

/-- Declaration keywords: `(?:const|let|var)` -/
def reConstLetVar : RE := reAltList [reStr "const", reStr "let", reStr "var"]

structure OutlinePattern where
  regex : RE
  type : String
  style : Option String
deriving Repr

def outlineRegexPatterns : List OutlinePattern := [
  -- /^(?:export\s+)?(?:async\s+)?function\s+(\w+)/m
  { regex := reCat [RE.bos, optWordWs "export", optWordWs "async", reStr "function", wsP, reIdG 1],
    type := "function", style := none },
  -- /^(?:export\s+)?(?:const|let|var)\s+(\w+)\s*[=:][^=]*=>/m
  { regex := reCat [RE.bos, optWordWs "export", reConstLetVar, wsP, reIdG 1, wsS,
      RE.cls false ['=', ':'], RE.star false (clsNot ['=']), reStr "=>"],
    type := "function", style := some "arrow" },
  -- /^(?:export\s+)?(?:const|let|var)\s+(\w+)\s*=\s*(?:async\s+)?function/m
  { regex := reCat [RE.bos, optWordWs "export", reConstLetVar, wsP, reIdG 1, wsS,
      RE.lit '=', wsS, optWordWs "async", reStr "function"],
    type := "function", style := none },
  -- /^(?:export\s+)?(?:const|let|var)\s+(\w+)\s*=\s*async\s*\(/m
  { regex := reCat [RE.bos, optWordWs "export", reConstLetVar, wsP, reIdG 1, wsS,
      RE.lit '=', wsS, reStr "async", wsS, RE.lit '('],
    type := "function", style := some "arrow" },
  -- /^(?:export\s+)?(?:abstract\s+)?class\s+(\w+)/m
  { regex := reCat [RE.bos, optWordWs "export", optWordWs "abstract", reStr "class", wsP, reIdG 1],
    type := "class", style := none },
  -- /^(?:export\s+)?interface\s+(\w+)/m
  { regex := reCat [RE.bos, optWordWs "export", reStr "interface", wsP, reIdG 1],
    type := "interface", style := none },
  -- /^(?:export\s+)?type\s+(\w+)\s*(?:<[^>]*>)?\s*=/m
  { regex := reCat [RE.bos, optWordWs "export", reStr "type", wsP, reIdG 1, wsS,
      reOpt (reCat [RE.lit '<', RE.star false (clsNot ['>']), RE.lit '>']), wsS, RE.lit '='],
    type := "type", style := none },
  -- /^(?:export\s+)?(?:const\s+)?enum\s+(\w+)/m
  { regex := reCat [RE.bos, optWordWs "export", optWordWs "const", reStr "enum", wsP, reIdG 1],
    type := "enum", style := none },
  -- /^(?:export\s+)?(?:declare\s+)?(?:namespace|module)\s+(\w+)/m
  { regex := reCat [RE.bos, optWordWs "export", optWordWs "declare",
      RE.alt (reStr "namespace") (reStr "module"), wsP, reIdG 1],
    type := "namespace", style := none },
  -- /^\s+(?:public|private|protected|static|async|readonly|\s)*(\w+)\s*(?:<[^>]*>)?\s*\([^)]*\)\s*(?::\s*[^{]+)?\s*\{/m
  { regex := reCat [RE.bos, wsP,
      RE.star false (reAltList [reStr "public", reStr "private", reStr "protected",
        reStr "static", reStr "async", reStr "readonly", RE.spacec]),
      reIdG 1, wsS,
      reOpt (reCat [RE.lit '<', RE.star false (clsNot ['>']), RE.lit '>']), wsS,
      reParens, wsS,
      reOpt (reCat [RE.lit ':', wsS, rePlus (clsNot ['\x7b'])]), wsS, RE.lit '\x7b'],
    type := "method", style := none },
  -- /^\s+(?:public|private|protected|static|async|readonly|\s)*(\w+)\s*=\s*(?:async\s+)?(?:\([^)]*\)|[^=])\s*=>/m
  { regex := reCat [RE.bos, wsP,
      RE.star false (reAltList [reStr "public", reStr "private", reStr "protected",
        reStr "static", reStr "async", reStr "readonly", RE.spacec]),
      reIdG 1, wsS, RE.lit '=', wsS, optWordWs "async",
      RE.alt reParens (clsNot ['=']), wsS, reStr "=>"],
    type := "method", style := some "arrow" },
  -- /^(?:async\s+)?def\s+(\w+)/m
  { regex := reCat [RE.bos, optWordWs "async", reStr "def", wsP, reIdG 1],
    type := "function", style := none },
  -- /^class\s+(\w+)/m
  { regex := reCat [RE.bos, reStr "class", wsP, reIdG 1],
    type := "class", style := none },
  -- /^func\s+(\w+)/m
  { regex := reCat [RE.bos, reStr "func", wsP, reIdG 1],
    type := "function", style := none },
  -- /^func\s+\([^)]+\)\s+(\w+)/m
  { regex := reCat [RE.bos, reStr "func", wsP, RE.lit '(', rePlus (clsNot [')']), RE.lit ')', wsP, reIdG 1],
    type := "method", style := none },
  -- /^type\s+(\w+)\s+(?:struct|interface)/m
  { regex := reCat [RE.bos, reStr "type", wsP, reIdG 1, wsP,
      RE.alt (reStr "struct") (reStr "interface")],
    type := "type", style := none },
  -- /^\s*(?:public|private|protected|static|final|abstract|\s)*class\s+(\w+)/m
  { regex := reCat [RE.bos, wsS,
      RE.star false (reAltList [reStr "public", reStr "private", reStr "protected",
        reStr "static", reStr "final", reStr "abstract", RE.spacec]),
      reStr "class", wsP, reIdG 1],
    type := "class", style := none },
  -- /^\s*(?:public|private|protected|static|final|abstract|\s)*interface\s+(\w+)/m
  { regex := reCat [RE.bos, wsS,
      RE.star false (reAltList [reStr "public", reStr "private", reStr "protected",
        reStr "static", reStr "final", reStr "abstract", RE.spacec]),
      reStr "interface", wsP, reIdG 1],
    type := "interface", style := none },
  -- /^\s*(?:public|private|protected|static|final|abstract|synchronized|\s)+(?:<[^>]+>\s+)?(\w+)\s*\([^)]*\)\s*(?:throws\s+[\w,\s]+)?\s*\{/m
  { regex := reCat [RE.bos, wsS,
      rePlus (reAltList [reStr "public", reStr "private", reStr "protected",
        reStr "static", reStr "final", reStr "abstract", reStr "synchronized", RE.spacec]),
      reOpt (reCat [RE.lit '<', rePlus (clsNot ['>']), RE.lit '>', wsP]),
      reIdG 1, wsS, reParens, wsS,
      reOpt (reCat [reStr "throws", wsP,
        rePlus (reAltList [RE.wordc, RE.lit ',', RE.spacec])]),
      wsS, RE.lit '\x7b'],
    type := "method", style := none },
  -- /^\s*(?:public|private|protected|\s)*enum\s+(\w+)/m
  { regex := reCat [RE.bos, wsS,
      RE.star false (reAltList [reStr "public", reStr "private", reStr "protected", RE.spacec]),
      reStr "enum", wsP, reIdG 1],
    type := "enum", style := none },
  -- /^(?:pub\s+)?(?:async\s+)?fn\s+(\w+)/m
  { regex := reCat [RE.bos, optWordWs "pub", optWordWs "async", reStr "fn", wsP, reIdG 1],
    type := "function", style := none },
  -- /^(?:pub\s+)?struct\s+(\w+)/m
  { regex := reCat [RE.bos, optWordWs "pub", reStr "struct", wsP, reIdG 1],
    type := "struct", style := none },
  -- /^(?:pub\s+)?enum\s+(\w+)/m
  { regex := reCat [RE.bos, optWordWs "pub", reStr "enum", wsP, reIdG 1],
    type := "enum", style := none },
  -- /^(?:pub\s+)?trait\s+(\w+)/m
  { regex := reCat [RE.bos, optWordWs "pub", reStr "trait", wsP, reIdG 1],
    type := "trait", style := none },
  -- /^impl(?:<[^>]+>)?\s+(?:(\w+)|for\s+(\w+))/m
  { regex := reCat [RE.bos, reStr "impl",
      reOpt (reCat [RE.lit '<', rePlus (clsNot ['>']), RE.lit '>']), wsP,
      RE.alt (reIdG 1) (reCat [reStr "for", wsP, reIdG 2])],
    type := "impl", style := none },
  -- /^(?:static\s+)?(?:inline\s+)?(?:const\s+)?(?:\w+\s+)+(\w+)\s*\([^)]*\)\s*(?:const)?\s*\{/m
  { regex := reCat [RE.bos, optWordWs "static", optWordWs "inline", optWordWs "const",
      rePlus (reCat [rePlus RE.wordc, wsP]), reIdG 1, wsS, reParens, wsS,
      reOpt (reStr "const"), wsS, RE.lit '\x7b'],
    type := "function", style := none },
  -- /^(?:class|struct)\s+(\w+)/m
  { regex := reCat [RE.bos, RE.alt (reStr "class") (reStr "struct"), wsP, reIdG 1],
    type := "class", style := none },
  -- /^typedef\s+(?:struct\s+)?(?:\{[^}]*\}\s+)?(\w+)/m
  { regex := reCat [RE.bos, reStr "typedef", wsP, optWordWs "struct",
      reOpt (reCat [RE.lit '\x7b', RE.star false (clsNot ['\x7d']), RE.lit '\x7d', wsP]),
      reIdG 1],
    type := "type", style := none },
  -- /^(?:public|private|protected|static|\s)*function\s+(\w+)/m
  { regex := reCat [RE.bos,
      RE.star false (reAltList [reStr "public", reStr "private", reStr "protected",
        reStr "static", RE.spacec]),
      reStr "function", wsP, reIdG 1],
    type := "function", style := none },
  -- /^(?:abstract\s+)?class\s+(\w+)/m
  { regex := reCat [RE.bos, optWordWs "abstract", reStr "class", wsP, reIdG 1],
    type := "class", style := none },
  -- /^interface\s+(\w+)/m
  { regex := reCat [RE.bos, reStr "interface", wsP, reIdG 1],
    type := "interface", style := none },
  -- /^trait\s+(\w+)/m
  { regex := reCat [RE.bos, reStr "trait", wsP, reIdG 1],
    type := "trait", style := none },
  -- /^(?:def\s+)?(?:self\.)?(\w+(?:\?|!)?)\s*(?:\([^)]*\))?\s*$/m
  { regex := reCat [RE.bos, optWordWs "def", reOpt (reStr "self."),
      RE.grp 1 (reCat [rePlus RE.wordc, reOpt (RE.alt (RE.lit '?') (RE.lit '!'))]),
      wsS, reOpt reParens, wsS, RE.eos],
    type := "method", style := none },
  -- /^class\s+(\w+)/m  (Ruby)
  { regex := reCat [RE.bos, reStr "class", wsP, reIdG 1],
    type := "class", style := none },
  -- /^module\s+(\w+)/m  (Ruby)
  { regex := reCat [RE.bos, reStr "module", wsP, reIdG 1],
    type := "module", style := none }
]

/-- The false-positive identifier exclusion list of `_getOutlineWithRegex`. -/
def outlineExcludedNames : List String :=
  ["if", "for", "while", "switch", "return", "throw", "new", "try", "catch"]

/-- The inner pattern loop of `_getOutlineWithRegex` for one line:
first pattern that matches AND survives the name/dedup checks wins
(an excluded or duplicate name `continue`s to the NEXT pattern). -/
def outlineTryPatterns (line : String) (lineNum : Nat) (seen : List (Nat × String)) :
    List OutlinePattern → Option (OutlineItem × (Nat × String))
  | [] => none
  | p :: rest =>
    match jsMatch p.regex line with
    | some (_, _, caps) =>
      let name? := jsOrStr (capStr line caps 1) (capStr line caps 2)
      if !(jsTruthyStr name?) then outlineTryPatterns line lineNum seen rest
      else
        let name := name?.getD ""
        if outlineExcludedNames.contains name then outlineTryPatterns line lineNum seen rest
        else if seen.contains (lineNum, name) then outlineTryPatterns line lineNum seen rest
        else
          some ({ type := p.type, name := name, line := lineNum, endLine := none,
                  signature := extractSignature line p.type, style := p.style,
                  exported := none, depth := none }, (lineNum, name))
    | none => outlineTryPatterns line lineNum seen rest

/-- Embeds `_getOutlineWithRegex(sourceCode)`: per line, skip blank/comment
lines, else emit the first surviving pattern match.  The `seenLines` set
of `lineNum:name` keys is modelled as a list of `(lineNum, name)` pairs
(the string encoding in the source is injective in the pair). -/
def getOutlineWithRegex (sourceCode : String) : List OutlineItem :=
  (((jsSplitLines sourceCode).foldl
    (fun (st : List OutlineItem × List (Nat × String) × Nat) line =>
      match st with
      | (outline, seen, idx) =>
      let lineNum := idx + 1
      let trimmedLine := jsTrim line
      if trimmedLine = "" ∨ jsStartsWith trimmedLine "//" ∨
         jsStartsWith trimmedLine "#" ∨ jsStartsWith trimmedLine "/*" ∨
         jsStartsWith trimmedLine "*" ∨ jsStartsWith trimmedLine "\"\"\"" ∨
         jsStartsWith trimmedLine "\x27\x27\x27" then
        (outline, seen, idx + 1)
      else
        match outlineTryPatterns line lineNum seen outlineRegexPatterns with
        | some (item, key) => (outline ++ [item], seen ++ [key], idx + 1)
        | none => (outline, seen, idx + 1))
    ([], [], 0))).1

/-- Embeds `getOutline(sourceCode)` of the AST path after a successful parse:
collect from the root, then sort ascending by line. -/
def getOutlineFromTree (root : TSNode) (sourceCode : String) : List OutlineItem :=
  sortByLine (collectOutline root (jsSplitLines sourceCode) 0)

/-- Embeds `getOutline(sourceCode)`: AST path when a grammar is available and
the parse succeeded (`tree = some root` — tree-sitter is external, so
the tree is an input here); regex fallback when the language has no
grammar or parsing threw (`tree = none`). -/
def getOutline (tree : Option TSNode) (sourceCode : String) : List OutlineItem :=
  match tree with
  | some root => getOutlineFromTree root sourceCode
  | none => getOutlineWithRegex sourceCode


/-! ### Element location, extraction and replacement -/

/-- The kind-compatibility test inlined in `_findElementInAST`
(the walker of `extractElement`): note the extra `variable` line, and the
final `type === item.type` catch-all. -/
def typeMatchesExtract (ty itemType : String) : Bool :=
  (ty = "function" && (itemType = "function" || itemType = "method")) ||
  (ty = "class" && itemType = "class") ||
  (ty = "interface" && itemType = "interface") ||
  (ty = "type" && (itemType = "type" || itemType = "interface")) ||
  (ty = "variable" && itemType = "variable") ||
  (ty = itemType)

/-- The kind-compatibility test inlined in `_findElementNode`
(the walker of `replaceElement`); same as the extract one minus the
`variable` line. -/
def typeMatchesFind (ty itemType : String) : Bool :=
  (ty = "function" && (itemType = "function" || itemType = "method")) ||
  (ty = "class" && itemType = "class") ||
  (ty = "interface" && itemType = "interface") ||
  (ty = "type" && (itemType = "type" || itemType = "interface")) ||
  (ty = itemType)

structure ExtractResult where
  type : String
  name : String
  location : String
  startLine : Nat
  endLine : Nat
  content : String
deriving Repr, DecidableEq

/-- Location label of a result (the template `Lines a-b`, 1-based). -/
def mkLocation (s e : Nat) : String :=
  "Lines " ++ toString (s + 1) ++ "-" ++ toString (e + 1)

mutual
/-- Embeds `_findElementInAST`: walk the whole tree accumulating matches;
`seenLocations` (a JS `Set` of `startRow:endRow` strings, modelled as a
list of row pairs — the string encoding is injective in the pair) dedups
by RAW node span.  `Math.max(0, row - context)` is truncated `Nat`
subtraction.  (The per-node state is destructured by a single pair
match so that evaluation shares it.) -/
def findElementInAST : TSNode → String → String → List String →
    List ExtractResult → List (Nat × Nat) → Nat → List ExtractResult × List (Nat × Nat)
  | .mk t tx sr sc er ec si ei ks, targetName, ty, lines, results, seen, contextLines =>
    match
      (match nodeToOutlineItem (TSNode.mk t tx sr sc er ec si ei ks) lines with
       | some item =>
         if item.name = targetName && typeMatchesExtract ty item.type then
           if seen.contains (sr, er) then (results, seen)
           else
             let startLine := sr - contextLines
             let endLine := min (lines.length - 1) (er + contextLines)
             let newResult : ExtractResult :=
               { type := item.type, name := targetName,
                 location := mkLocation startLine endLine,
                 startLine := startLine + 1, endLine := endLine + 1,
                 content := jsJoinLines ((lines.drop startLine).take (endLine + 1 - startLine)) }
             (results ++ [newResult], seen ++ [(sr, er)])
         else (results, seen)
       | none => (results, seen)) with
    | (results2, seen2) => findElementInKids ks targetName ty lines results2 seen2 contextLines
def findElementInKids : TSKids → String → String → List String →
    List ExtractResult → List (Nat × Nat) → Nat → List ExtractResult × List (Nat × Nat)
  | .nil, _, _, _, results, seen, _ => (results, seen)
  | .cons _ c rest, targetName, ty, lines, results, seen, contextLines =>
    match findElementInAST c targetName ty lines results seen contextLines with
    | (results2, seen2) => findElementInKids rest targetName ty lines results2 seen2 contextLines
end

mutual
/-- Embeds `_findElementNode` (the walker of `replaceElement`): first
matching node in pre-order wins; the source passes the dummy one-element
lines array holding the empty string. -/
def findElementNode : TSNode → String → String → Option TSNode
  | .mk t tx sr sc er ec si ei ks, targetName, ty =>
    let node := TSNode.mk t tx sr sc er ec si ei ks
    match nodeToOutlineItem node [""] with
    | some item =>
      if item.name = targetName && typeMatchesFind ty item.type then some node
      else findElementNodeKids ks targetName ty
    | none => findElementNodeKids ks targetName ty
def findElementNodeKids : TSKids → String → String → Option TSNode
  | .nil, _, _ => none
  | .cons _ c rest, targetName, ty =>
    match findElementNode c targetName ty with
    | some found => some found
    | none => findElementNodeKids rest targetName ty
end

inductive ExtractOutcome where
  | found (results : List ExtractResult)
  | notFound (msg : String)
deriving Repr, DecidableEq

def notFoundMsg (targetName ty : String) : String :=
  "Element \x27" ++ targetName ++ "\x27 of type \x27" ++ ty ++ "\x27 not found."

/-- Embeds `extractElement` on the AST path (parse succeeded). -/
def extractElementFromTree (root : TSNode) (src targetName ty : String)
    (contextLines : Nat) : ExtractOutcome :=
  let lines := jsSplitLines src
  let results := (findElementInAST root targetName ty lines [] [] contextLines).1
  if results.isEmpty then .notFound (notFoundMsg targetName ty) else .found results

/-- The per-type pattern groups of `_extractElementWithRegex`.  The
source splices `escapedName` (the regex-escaped target) into each
pattern; escaping makes the name match as a literal, embedded here as
`reStr name`. -/
def extractRegexPatterns (name ty : String) : List RE :=
  match ty with
  | "function" => [
      reCat [RE.bos, optWordWs "export", optWordWs "async", reStr "function", wsP,
        reStr name, wsS, RE.cls false ['(', '<']],
      reCat [RE.bos, optWordWs "export", reConstLetVar, wsP, reStr name, wsS,
        RE.lit '=', wsS, optWordWs "async", RE.alt reParens (clsNot ['=']), wsS, reStr "=>"],
      reCat [RE.bos, optWordWs "export", reConstLetVar, wsP, reStr name, wsS,
        RE.lit '=', wsS, optWordWs "async", reStr "function"],
      reCat [RE.bos, optWordWs "async", reStr "def", wsP, reStr name, wsS, RE.lit '('],
      reCat [RE.bos, reStr "func", wsP, reStr name, wsS, RE.lit '(']]
  | "class" => [
      reCat [RE.bos, optWordWs "export", optWordWs "abstract", reStr "class", wsP, reStr name],
      reCat [RE.bos, reStr "class", wsP, reStr name]]
  | "interface" => [
      reCat [RE.bos, optWordWs "export", reStr "interface", wsP, reStr name]]
  | "type" => [
      reCat [RE.bos, optWordWs "export", reStr "type", wsP, reStr name, wsS,
        reOpt (reCat [RE.lit '<', RE.star false (clsNot ['>']), RE.lit '>']), wsS, RE.lit '='],
      reCat [RE.bos, reStr "type", wsP, reStr name, wsP,
        RE.alt (reStr "struct") (reStr "interface")]]
  | _ => [reCat [RE.wb, reStr name, RE.wb]]

/-- Embeds `_extractElementWithRegex`: per line, push a result when any
pattern of the group tests true (first pattern stops the scan for that
line; NO span dedup on this path). -/
def extractElementWithRegex (src targetName ty : String) (contextLines : Nat) : ExtractOutcome :=
  let lines := jsSplitLines src
  let patterns := extractRegexPatterns targetName ty
  let results := ((lines.foldl
    (fun (st : List ExtractResult × Nat) line =>
      match st with
      | (results, idx) =>
      if patterns.any (fun p => reTest p line) then
        let startLine := idx - contextLines
        let endLine := min (lines.length - 1) (idx + contextLines + 20)
        let newResult : ExtractResult :=
          { type := ty, name := targetName,
            location := mkLocation startLine endLine,
            startLine := startLine + 1, endLine := endLine + 1,
            content := jsJoinLines ((lines.drop startLine).take (endLine + 1 - startLine)) }
        (results ++ [newResult], idx + 1)
      else (results, idx + 1))
    ([], 0))).1
  if results.isEmpty then .notFound (notFoundMsg targetName ty) else .found results

/-- Embeds `extractElement`: AST walker when a grammar is available and the
parse succeeded, regex fallback otherwise. -/
def extractElement (tree : Option TSNode) (src targetName ty : String)
    (contextLines : Nat) : ExtractOutcome :=
  match tree with
  | some root => extractElementFromTree root src targetName ty contextLines
  | none => extractElementWithRegex src targetName ty contextLines

/-- The per-type start-line pattern of `_replaceElementWithRegex`. -/
def replaceStartPattern (name ty : String) : Option RE :=
  match ty with
  | "function" => some (reCat [RE.bos, optWordWs "export", optWordWs "async",
      RE.alt (reCat [reStr "function", wsP, reStr name])
             (reCat [reConstLetVar, wsP, reStr name, wsS, RE.lit '='])])
  | "class" => some (reCat [RE.bos, optWordWs "export", optWordWs "abstract",
      reStr "class", wsP, reStr name])
  | "interface" => some (reCat [RE.bos, optWordWs "export", reStr "interface", wsP, reStr name])
  | "type" => some (reCat [RE.bos, optWordWs "export", reStr "type", wsP, reStr name])
  | _ => none

def firstMatchIdx (pattern : RE) : List String → Nat → Option Nat
  | [], _ => none
  | l :: rest, i => if reTest pattern l then some i else firstMatchIdx pattern rest (i + 1)

/-- One line of the naive brace counter (`braceCount` is a JS number and
can go negative, hence `Int`; `foundBrace` latches). -/
def lineBraces (line : String) (st : Int × Bool) : Int × Bool :=
  line.toList.foldl
    (fun (st : Int × Bool) ch =>
      match st with
      | (count, found) =>
        if ch = '\x7b' then (count + 1, true)
        else if ch = '\x7d' then (count - 1, found)
        else (count, found))
    st

/-- The end-of-element scan: first line index (from `startIdx`) after
which `foundBrace && braceCount === 0`; if the loop runs out, `endIdx`
keeps its initialisation `startIdx`. -/
def findEndIdx : List String → Nat → Int → Bool → Nat → Nat
  | [], _, _, _, dflt => dflt
  | l :: rest, i, count, found, dflt =>
    let st := lineBraces l (count, found)
    if st.2 && st.1 = 0 then i
    else findEndIdx rest (i + 1) st.1 st.2 dflt

/-- Embeds `_replaceElementWithRegex`: find the declaration start line, scan
for the balancing close brace, splice `newContent` between the
surrounding lines. -/
def replaceElementWithRegex (src targetName ty newContent : String) : Except String String :=
  let lines := jsSplitLines src
  match replaceStartPattern targetName ty with
  | none => Except.error ("Unsupported type for replacement: " ++ ty)
  | some startPattern =>
    match firstMatchIdx startPattern lines 0 with
    | none => Except.error (notFoundMsg targetName ty)
    | some startIdx =>
      let endIdx := findEndIdx (lines.drop startIdx) startIdx 0 false startIdx
      let before := jsJoinLines (lines.take startIdx)
      let after := jsJoinLines (lines.drop (endIdx + 1))
      Except.ok (before ++ (if before = "" then "" else "\n") ++ newContent ++
                 (if after = "" then "" else "\n") ++ after)

/-- Embeds `replaceElement`: on the AST path, the exact byte range of the
located node
is substituted (`sourceCode.slice(0, node.startIndex) + newContent +
sourceCode.slice(node.endIndex)`); when no node is found, or no
grammar/parse is available (`tree = none`), the regex fallback runs. -/
def replaceElement (tree : Option TSNode) (src targetName ty newContent : String) :
    Except String String :=
  match tree with
  | some root =>
    match findElementNode root targetName ty with
    | some node =>
      Except.ok (strTake src node.startIndex ++ newContent ++ strDrop src node.endIndex)
    | none => replaceElementWithRegex src targetName ty newContent
  | none => replaceElementWithRegex src targetName ty newContent


/-! ### The search-hit classifier (`_classifyLine` and friends) -/

/-- Embeds `_isComment(line, language)`. -/
def isComment (line language : String) : Bool :=
  let trimmed := jsTrim line
  if ["javascript", "typescript", "java", "go", "cpp", "c"].contains language then
    jsStartsWith trimmed "//" || jsStartsWith trimmed "/*" || jsStartsWith trimmed "*"
  else if language = "python" then
    jsStartsWith trimmed "#" || jsStartsWith trimmed "\"\"\"" ||
    jsStartsWith trimmed "\x27\x27\x27"
  else false

/-- Embeds `_isImportLine(line, language)`. -/
def isImportLine (line language : String) : Bool :=
  let trimmed := jsTrim line
  if ["javascript", "typescript"].contains language then
    jsStartsWith trimmed "import " || jsIncludes trimmed "require("
  else if language = "python" then
    jsStartsWith trimmed "import " || jsStartsWith trimmed "from "
  else if language = "go" then
    jsStartsWith trimmed "import "
  else if language = "java" then
    jsStartsWith trimmed "import "
  else false

/-- The three quote characters — single quote, double quote, backtick —
of the string-span pattern. -/
def quoteChars : List Char := ['\x27', '"', '\x60']

/-- Index of the next occurrence of the closing quote `c`, failing if a
newline comes first (`.` does not match line terminators). -/
def findCloseQuote (c : Char) : List Char → Option Nat
  | [] => none
  | x :: xs =>
    if x = c then some 0
    else if x = '\n' ∨ x = '\r' then none
    else (findCloseQuote c xs).map (· + 1)

/-- Embeds the global string-span replacement (pattern: one of the three
quote characters, then lazily up to the matching close, replaced by the
empty string): scanning left to right, it
removes each shortest same-quote-delimited span; a quote
with no closer on its line is kept and scanning resumes one character
later, exactly like the JS engine.  (`fuel = length + 1` suffices since
each step consumes at least one character.) -/
def stripQuotedAux : Nat → List Char → List Char
  | 0, l => l
  | Nat.succ _, [] => []
  | Nat.succ f, c :: rest =>
    if quoteChars.contains c then
      match findCloseQuote c rest with
      | some n => stripQuotedAux f (rest.drop (n + 1))
      | none => c :: stripQuotedAux f rest
    else c :: stripQuotedAux f rest

def stripQuotedSpans (l : List Char) : List Char :=
  stripQuotedAux (l.length + 1) l

/-- Embeds `_isInStringLiteral(line, pattern)`: strip all quoted spans and test
whether the pattern is still present outside them. -/
def isInStringLiteral (line pattern : String) : Bool :=
  !(listIncludes (stripQuotedSpans line.toList) pattern.toList)

/-- The `definitionPatterns` of `_simpleClassify`, in source order (the
JS groups are capturing but only `.test` is called, so captures are
irrelevant and omitted). -/
def simpleDefinitionPatterns : List RE := [
  -- /^(export\s+)?(async\s+)?function\s+/
  reCat [RE.bos, optWordWs "export", optWordWs "async", reStr "function", wsP],
  -- /^(export\s+)?(const|let|var)\s+\w+\s*=\s*(async\s+)?\(/
  reCat [RE.bos, optWordWs "export", reConstLetVar, wsP, rePlus RE.wordc, wsS,
    RE.lit '=', wsS, optWordWs "async", RE.lit '('],
  -- /^(export\s+)?(const|let|var)\s+\w+\s*=\s*(async\s+)?function/
  reCat [RE.bos, optWordWs "export", reConstLetVar, wsP, rePlus RE.wordc, wsS,
    RE.lit '=', wsS, optWordWs "async", reStr "function"],
  -- /^(export\s+)?class\s+/
  reCat [RE.bos, optWordWs "export", reStr "class", wsP],
  -- /^def\s+\w+\s*\(/
  reCat [RE.bos, reStr "def", wsP, rePlus RE.wordc, wsS, RE.lit '('],
  -- /^func\s+/
  reCat [RE.bos, reStr "func", wsP],
  -- /^(public|private|protected)?\s*(static\s+)?[\w<>]+\s+\w+\s*\(/
  reCat [RE.bos, reOpt (reAltList [reStr "public", reStr "private", reStr "protected"]),
    wsS, optWordWs "static", rePlus (reAltList [RE.wordc, RE.lit '<', RE.lit '>']),
    wsP, rePlus RE.wordc, wsS, RE.lit '(']]

/-- Embeds `_simpleClassify(lineContent, pattern)`: trimmed line matching any
definition pattern is a `definition`, EVERYTHING else — comments and
imports included — is `usage`.  (The `pattern` parameter is shadowed by
the loop variable in the source and hence unused.) -/
def simpleClassify (lineContent _pattern : String) : String :=
  let trimmed := jsTrim lineContent
  if simpleDefinitionPatterns.any (fun p => reTest p trimmed) then "definition"
  else "usage"

def posLeq (r1 c1 r2 c2 : Nat) : Bool :=
  r1 < r2 || (r1 = r2 && c1 ≤ c2)

def containsPoint (n : TSNode) (row col : Nat) : Bool :=
  posLeq n.startRow n.startCol row col && posLeq row col n.endRow n.endCol

mutual
/-- Model of the tree-sitter call `rootNode.descendantForPosition`
(an external-library call): descend into the first child whose span
contains the point, returning the smallest such node; since the
embedded trees carry no parent pointers, the kind of the parent — which
`_classifyLine` reads as `node.parent?.type` — is tracked during the
descent. -/
def descendantForPosition : TSNode → Option String → Nat → Nat → TSNode × Option String
  | .mk t tx sr sc er ec si ei ks, parentTy, row, col =>
    match descendKids ks t row col with
    | some res => res
    | none => (TSNode.mk t tx sr sc er ec si ei ks, parentTy)
def descendKids : TSKids → String → Nat → Nat → Option (TSNode × Option String)
  | .nil, _, _, _ => none
  | .cons _ c rest, pty, row, col =>
    if containsPoint c row col then some (descendantForPosition c (some pty) row col)
    else descendKids rest pty row col
end

/-- The `definitionTypes` array of `_classifyLine`. -/
def definitionNodeTypes : List String :=
  ["function_declaration", "function_definition", "method_definition",
   "class_declaration", "class_definition", "variable_declarator",
   "assignment_expression", "arrow_function"]

/-- Embeds `_classifyLine(content, lineNum, lineContent, pattern, analyzer,
tree, language)`: quick lexical checks (comment, import, string) first,
then the AST-assisted definition/usage decision, else
`_simpleClassify`.  The `content` and `analyzer` arguments are unused
in the source body and omitted here. -/
def classifyLine (lineNum : Nat) (lineContent pattern : String) (tree : TSNode)
    (language : String) : String :=
  let trimmed := jsTrim lineContent
  if isComment trimmed language then "comment"
  else if isImportLine trimmed language then "import"
  else if isInStringLiteral trimmed pattern then "string"
  else
    let res := descendantForPosition tree none (lineNum - 1) 0
    let nodeType := res.1.ty
    let parentType := res.2
    if definitionNodeTypes.contains nodeType ||
       (match parentType with
        | some p => definitionNodeTypes.contains p
        | none => false) then "definition"
    else if nodeType = "call_expression" || parentType = some "call_expression" ||
            parentType = some "arguments" then "usage"
    else simpleClassify lineContent pattern

/-- The per-hit dispatch of `_classifyResults`: unsupported extension →
`unknown`; file read + parse succeeded (`tree = some _`) →
`_classifyLine`; the `catch` branch (read/parse/analyzer construction
threw, `tree = none`) → `_simpleClassify`. -/
def classifyResult (language : Option String) (tree : Option TSNode) (lineNum : Nat)
    (lineContent pattern : String) : String :=
  match language with
  | none => "unknown"
  | some lang =>
    match tree with
    | some t => classifyLine lineNum lineContent pattern t lang
    | none => simpleClassify lineContent pattern


/-! ### Concrete sources and their tree-sitter parse trees

The trees below are the tree-sitter-javascript parses of the given
sources, written out node by node (kind, rows/columns, byte span, field
names); node texts are derived by slicing the source at the byte span. -/

def strSlice (s : String) (a b : Nat) : String :=
  ((s.toList.drop a).take (b - a)).asString

/-- Node builder: text is the source slice of the byte span. -/
def nd (src : String) (ty : String) (sr sc er ec si ei : Nat)
    (ks : List (Option String × TSNode)) : TSNode :=
  TSNode.mk ty (strSlice src si ei) sr sc er ec si ei (kidsOf ks)

/-- Source `function add(a,b){return a+b;}` plus `function sub(a,b){return a-b;}` on a second line. -/
def srcAddSub : String :=
  "function add(a,b)\x7breturn a+b;\x7d\nfunction sub(a,b)\x7breturn a-b;\x7d"

def addFun : TSNode :=
  nd srcAddSub "function_declaration" 0 0 0 30 0 30 [
    (none, nd srcAddSub "function" 0 0 0 8 0 8 []),
    (some "name", nd srcAddSub "identifier" 0 9 0 12 9 12 []),
    (some "parameters", nd srcAddSub "formal_parameters" 0 12 0 17 12 17 [
      (none, nd srcAddSub "(" 0 12 0 13 12 13 []),
      (none, nd srcAddSub "identifier" 0 13 0 14 13 14 []),
      (none, nd srcAddSub "," 0 14 0 15 14 15 []),
      (none, nd srcAddSub "identifier" 0 15 0 16 15 16 []),
      (none, nd srcAddSub ")" 0 16 0 17 16 17 [])]),
    (some "body", nd srcAddSub "statement_block" 0 17 0 30 17 30 [
      (none, nd srcAddSub "\x7b" 0 17 0 18 17 18 []),
      (none, nd srcAddSub "return_statement" 0 18 0 29 18 29 [
        (none, nd srcAddSub "return" 0 18 0 24 18 24 []),
        (none, nd srcAddSub "binary_expression" 0 25 0 28 25 28 [
          (some "left", nd srcAddSub "identifier" 0 25 0 26 25 26 []),
          (some "operator", nd srcAddSub "+" 0 26 0 27 26 27 []),
          (some "right", nd srcAddSub "identifier" 0 27 0 28 27 28 [])]),
        (none, nd srcAddSub ";" 0 28 0 29 28 29 [])]),
      (none, nd srcAddSub "\x7d" 0 29 0 30 29 30 [])])]

def subFun : TSNode :=
  nd srcAddSub "function_declaration" 1 0 1 30 31 61 [
    (none, nd srcAddSub "function" 1 0 1 8 31 39 []),
    (some "name", nd srcAddSub "identifier" 1 9 1 12 40 43 []),
    (some "parameters", nd srcAddSub "formal_parameters" 1 12 1 17 43 48 [
      (none, nd srcAddSub "(" 1 12 1 13 43 44 []),
      (none, nd srcAddSub "identifier" 1 13 1 14 44 45 []),
      (none, nd srcAddSub "," 1 14 1 15 45 46 []),
      (none, nd srcAddSub "identifier" 1 15 1 16 46 47 []),
      (none, nd srcAddSub ")" 1 16 1 17 47 48 [])]),
    (some "body", nd srcAddSub "statement_block" 1 17 1 30 48 61 [
      (none, nd srcAddSub "\x7b" 1 17 1 18 48 49 []),
      (none, nd srcAddSub "return_statement" 1 18 1 29 49 60 [
        (none, nd srcAddSub "return" 1 18 1 24 49 55 []),
        (none, nd srcAddSub "binary_expression" 1 25 1 28 56 59 [
          (some "left", nd srcAddSub "identifier" 1 25 1 26 56 57 []),
          (some "operator", nd srcAddSub "-" 1 26 1 27 57 58 []),
          (some "right", nd srcAddSub "identifier" 1 27 1 28 58 59 [])]),
        (none, nd srcAddSub ";" 1 28 1 29 59 60 [])]),
      (none, nd srcAddSub "\x7d" 1 29 1 30 60 61 [])])]

def treeAddSub : TSNode :=
  nd srcAddSub "program" 0 0 1 30 0 61 [(none, addFun), (none, subFun)]

/-- Source `function a(){} function b(){}` — two declarations on ONE line. -/
def srcTwoFnsOneLine : String := "function a()\x7b\x7d function b()\x7b\x7d"

def treeTwoFnsOneLine : TSNode :=
  nd srcTwoFnsOneLine "program" 0 0 0 29 0 29 [
    (none, nd srcTwoFnsOneLine "function_declaration" 0 0 0 14 0 14 [
      (none, nd srcTwoFnsOneLine "function" 0 0 0 8 0 8 []),
      (some "name", nd srcTwoFnsOneLine "identifier" 0 9 0 10 9 10 []),
      (some "parameters", nd srcTwoFnsOneLine "formal_parameters" 0 10 0 12 10 12 [
        (none, nd srcTwoFnsOneLine "(" 0 10 0 11 10 11 []),
        (none, nd srcTwoFnsOneLine ")" 0 11 0 12 11 12 [])]),
      (some "body", nd srcTwoFnsOneLine "statement_block" 0 12 0 14 12 14 [
        (none, nd srcTwoFnsOneLine "\x7b" 0 12 0 13 12 13 []),
        (none, nd srcTwoFnsOneLine "\x7d" 0 13 0 14 13 14 [])])]),
    (none, nd srcTwoFnsOneLine "function_declaration" 0 15 0 29 15 29 [
      (none, nd srcTwoFnsOneLine "function" 0 15 0 23 15 23 []),
      (some "name", nd srcTwoFnsOneLine "identifier" 0 24 0 25 24 25 []),
      (some "parameters", nd srcTwoFnsOneLine "formal_parameters" 0 25 0 27 25 27 [
        (none, nd srcTwoFnsOneLine "(" 0 25 0 26 25 26 []),
        (none, nd srcTwoFnsOneLine ")" 0 26 0 27 26 27 [])]),
      (some "body", nd srcTwoFnsOneLine "statement_block" 0 27 0 29 27 29 [
        (none, nd srcTwoFnsOneLine "\x7b" 0 27 0 28 27 28 []),
        (none, nd srcTwoFnsOneLine "\x7d" 0 28 0 29 28 29 [])])])]

/-- Two same-name functions on consecutive lines (valid JS:
redeclaration): `function foo() { return 1; }\nfunction foo() { return 2; }` -/
def srcDupFoo : String :=
  "function foo() \x7b return 1; \x7d\nfunction foo() \x7b return 2; \x7d"

def dupFooDecl1 : TSNode :=
  nd srcDupFoo "function_declaration" 0 0 0 28 0 28 [
    (none, nd srcDupFoo "function" 0 0 0 8 0 8 []),
    (some "name", nd srcDupFoo "identifier" 0 9 0 12 9 12 []),
    (some "parameters", nd srcDupFoo "formal_parameters" 0 12 0 14 12 14 [
      (none, nd srcDupFoo "(" 0 12 0 13 12 13 []),
      (none, nd srcDupFoo ")" 0 13 0 14 13 14 [])]),
    (some "body", nd srcDupFoo "statement_block" 0 15 0 28 15 28 [
      (none, nd srcDupFoo "\x7b" 0 15 0 16 15 16 []),
      (none, nd srcDupFoo "return_statement" 0 17 0 26 17 26 [
        (none, nd srcDupFoo "return" 0 17 0 23 17 23 []),
        (none, nd srcDupFoo "number" 0 24 0 25 24 25 []),
        (none, nd srcDupFoo ";" 0 25 0 26 25 26 [])]),
      (none, nd srcDupFoo "\x7d" 0 27 0 28 27 28 [])])]

def dupFooDecl2 : TSNode :=
  nd srcDupFoo "function_declaration" 1 0 1 28 29 57 [
    (none, nd srcDupFoo "function" 1 0 1 8 29 37 []),
    (some "name", nd srcDupFoo "identifier" 1 9 1 12 38 41 []),
    (some "parameters", nd srcDupFoo "formal_parameters" 1 12 1 14 41 43 [
      (none, nd srcDupFoo "(" 1 12 1 13 41 42 []),
      (none, nd srcDupFoo ")" 1 13 1 14 42 43 [])]),
    (some "body", nd srcDupFoo "statement_block" 1 15 1 28 44 57 [
      (none, nd srcDupFoo "\x7b" 1 15 1 16 44 45 []),
      (none, nd srcDupFoo "return_statement" 1 17 1 26 46 55 [
        (none, nd srcDupFoo "return" 1 17 1 23 46 52 []),
        (none, nd srcDupFoo "number" 1 24 1 25 53 54 []),
        (none, nd srcDupFoo ";" 1 25 1 26 54 55 [])]),
      (none, nd srcDupFoo "\x7d" 1 27 1 28 56 57 [])])]

def treeDupFoo : TSNode :=
  nd srcDupFoo "program" 0 0 1 28 0 57 [(none, dupFooDecl1), (none, dupFooDecl2)]

/-- Source `export function foo() {}` and its parse tree. -/
def srcExportFn : String := "export function foo() \x7b\x7d"

def exportFnDecl : TSNode :=
  nd srcExportFn "function_declaration" 0 7 0 24 7 24 [
    (none, nd srcExportFn "function" 0 7 0 15 7 15 []),
    (some "name", nd srcExportFn "identifier" 0 16 0 19 16 19 []),
    (some "parameters", nd srcExportFn "formal_parameters" 0 19 0 21 19 21 [
      (none, nd srcExportFn "(" 0 19 0 20 19 20 []),
      (none, nd srcExportFn ")" 0 20 0 21 20 21 [])]),
    (some "body", nd srcExportFn "statement_block" 0 22 0 24 22 24 [
      (none, nd srcExportFn "\x7b" 0 22 0 23 22 23 []),
      (none, nd srcExportFn "\x7d" 0 23 0 24 23 24 [])])]

def treeExportFn : TSNode :=
  nd srcExportFn "program" 0 0 0 24 0 24 [
    (none, nd srcExportFn "export_statement" 0 0 0 24 0 24 [
      (none, nd srcExportFn "export" 0 0 0 6 0 6 []),
      (some "declaration", exportFnDecl)])]

/-- Source `export const foo = () => {}` and its parse tree. -/
def srcExportArrow : String := "export const foo = () => \x7b\x7d"

def treeExportArrow : TSNode :=
  nd srcExportArrow "program" 0 0 0 27 0 27 [
    (none, nd srcExportArrow "export_statement" 0 0 0 27 0 27 [
      (none, nd srcExportArrow "export" 0 0 0 6 0 6 []),
      (some "declaration", nd srcExportArrow "lexical_declaration" 0 7 0 27 7 27 [
        (none, nd srcExportArrow "const" 0 7 0 12 7 12 []),
        (none, nd srcExportArrow "variable_declarator" 0 13 0 27 13 27 [
          (some "name", nd srcExportArrow "identifier" 0 13 0 16 13 16 []),
          (none, nd srcExportArrow "=" 0 17 0 18 17 18 []),
          (some "value", nd srcExportArrow "arrow_function" 0 19 0 27 19 27 [
            (some "parameters", nd srcExportArrow "formal_parameters" 0 19 0 21 19 21 [
              (none, nd srcExportArrow "(" 0 19 0 20 19 20 []),
              (none, nd srcExportArrow ")" 0 20 0 21 20 21 [])]),
            (none, nd srcExportArrow "=>" 0 22 0 24 22 24 []),
            (some "body", nd srcExportArrow "statement_block" 0 25 0 27 25 27 [
              (none, nd srcExportArrow "\x7b" 0 25 0 26 25 26 []),
              (none, nd srcExportArrow "\x7d" 0 26 0 27 26 27 [])])])])])])]

/-- Source `export default class Foo {}` and its parse tree. -/
def srcDefaultClass : String := "export default class Foo \x7b\x7d"

def treeDefaultClass : TSNode :=
  nd srcDefaultClass "program" 0 0 0 27 0 27 [
    (none, nd srcDefaultClass "export_statement" 0 0 0 27 0 27 [
      (none, nd srcDefaultClass "export" 0 0 0 6 0 6 []),
      (none, nd srcDefaultClass "default" 0 7 0 14 7 14 []),
      (some "declaration", nd srcDefaultClass "class_declaration" 0 15 0 27 15 27 [
        (none, nd srcDefaultClass "class" 0 15 0 20 15 20 []),
        (some "name", nd srcDefaultClass "identifier" 0 21 0 24 21 24 []),
        (some "body", nd srcDefaultClass "class_body" 0 25 0 27 25 27 [
          (none, nd srcDefaultClass "\x7b" 0 25 0 26 25 26 []),
          (none, nd srcDefaultClass "\x7d" 0 26 0 27 26 27 [])])])])]

/-- A lone class-method node, `m() {}` at row 3 of some class body (used
to witness kind-compatibility). -/
def methodNodeM : TSNode :=
  TSNode.mk "method_definition" "m() \x7b\x7d" 3 2 3 8 40 46 (kidsOf [
    (some "name", TSNode.mk "property_identifier" "m" 3 2 3 3 40 41 TSKids.nil),
    (some "parameters", TSNode.mk "formal_parameters" "()" 3 3 3 5 41 43 TSKids.nil),
    (some "body", TSNode.mk "statement_block" "\x7b\x7d" 3 6 3 8 44 46 TSKids.nil)])

/-- Rust source for the unsupported-language fallback scenario. -/
def srcRust : String :=
  "pub fn main() \x7b\x7d\npub struct Point \x7b\x7d\npub enum Color \x7b\x7d\npub trait Shape \x7b\x7d\nimpl Shape \x7b\x7d"


/-! ### Supporting lemmas -/

/-- Projection used to state span-duplication properties. -/
def spansOfOutcome (o : ExtractOutcome) : List (Nat × Nat) :=
  match o with
  | .found rs => rs.map (fun r => (r.startLine, r.endLine))
  | .notFound _ => []

lemma insertByLine_perm (x : OutlineItem) (l : List OutlineItem) :
    List.Perm (insertByLine x l) (x :: l) := by
  induction l with
  | nil => simp [insertByLine]
  | cons y ys ih =>
    unfold insertByLine
    by_cases h : x.line < y.line
    · simp [h]
    · simp only [h, if_false]
      exact ((ih.cons y).trans (List.Perm.swap x y ys))

lemma sortByLine_foldl_perm (l : List OutlineItem) :
    ∀ acc, List.Perm (l.foldl (fun acc x => insertByLine x acc) acc) (acc ++ l) := by
  induction l with
  | nil => intro acc; simp
  | cons x xs ih =>
    intro acc
    have h1 := ih (insertByLine x acc)
    have h2 : List.Perm (insertByLine x acc ++ xs) (acc ++ x :: xs) := by
      have h3 := (insertByLine_perm x acc).append_right xs
      exact h3.trans List.perm_middle.symm
    simpa using h1.trans h2

lemma sortByLine_perm (l : List OutlineItem) : List.Perm (sortByLine l) l := by
  simpa using sortByLine_foldl_perm l []

lemma insertByLine_sorted (x : OutlineItem) (l : List OutlineItem)
    (h : l.Pairwise (fun a b => a.line ≤ b.line)) :
    (insertByLine x l).Pairwise (fun a b => a.line ≤ b.line) := by
  induction l with
  | nil => simp [insertByLine]
  | cons y ys ih =>
    rcases List.pairwise_cons.mp h with ⟨hy, hys⟩
    unfold insertByLine
    by_cases hlt : x.line < y.line
    · simp only [hlt, if_true]
      refine List.pairwise_cons.mpr ⟨?_, h⟩
      intro z hz
      rcases List.mem_cons.mp hz with rfl | hz2
      · exact Nat.le_of_lt hlt
      · exact Nat.le_trans (Nat.le_of_lt hlt) (hy z hz2)
    · simp only [hlt, if_false]
      refine List.pairwise_cons.mpr ⟨?_, ih hys⟩
      intro z hz
      have hmem := (insertByLine_perm x ys).mem_iff.mp hz
      rcases List.mem_cons.mp hmem with rfl | hmem2
      · exact Nat.le_of_not_lt hlt
      · exact hy z hmem2

lemma sortByLine_foldl_sorted (l : List OutlineItem) :
    ∀ acc, acc.Pairwise (fun a b => a.line ≤ b.line) →
      (l.foldl (fun acc x => insertByLine x acc) acc).Pairwise (fun a b => a.line ≤ b.line) := by
  induction l with
  | nil => intro acc h; simpa using h
  | cons x xs ih =>
    intro acc h
    exact ih (insertByLine x acc) (insertByLine_sorted x acc h)

lemma sortByLine_sorted (l : List OutlineItem) :
    (sortByLine l).Pairwise (fun a b => a.line ≤ b.line) := by
  exact sortByLine_foldl_sorted l [] (by simp)

lemma pairwise_lt_of_le_nodup (l : List OutlineItem)
    (hle : l.Pairwise (fun a b => a.line ≤ b.line))
    (hn : (l.map OutlineItem.line).Nodup) :
    l.Pairwise (fun a b => a.line < b.line) := by
  have hne : l.Pairwise (fun a b => a.line ≠ b.line) := by
    simpa [List.Nodup, List.pairwise_map] using hn
  exact (hle.and hne).imp (fun h => Nat.lt_of_le_of_ne h.1 h.2)

lemma dropWhile_dropWhile (p : Char → Bool) (l : List Char) :
    (l.dropWhile p).dropWhile p = l.dropWhile p := by
  induction l with
  | nil => simp
  | cons x xs ih =>
    by_cases h : p x
    · simp [List.dropWhile_cons, h, ih]
    · simp [List.dropWhile_cons, h]

lemma head_dropWhile_false (p : Char → Bool) (l : List Char) :
    ∀ c, (l.dropWhile p).head? = some c → p c = false := by
  induction l with
  | nil => intro c h; simp at h
  | cons x xs ih =>
    intro c h
    by_cases hx : p x
    · rw [List.dropWhile_cons, if_pos hx] at h
      exact ih c h
    · rw [List.dropWhile_cons, if_neg hx] at h
      have hxc : x = c := by
        have := h
        simp only [List.head?_cons, Option.some.injEq] at this
        exact this
      rw [← hxc]
      exact Bool.of_not_eq_true hx

lemma dropWhile_of_head_false (p : Char → Bool) (l : List Char)
    (h : ∀ c, l.head? = some c → p c = false) : l.dropWhile p = l := by
  cases l with
  | nil => simp
  | cons x xs =>
    have hx := h x (by simp)
    simp [List.dropWhile_cons, hx]

lemma jsTrimList_idem (l : List Char) : jsTrimList (jsTrimList l) = jsTrimList l := by
  unfold jsTrimList
  have hBfst : ((((l.dropWhile isJsSpace).reverse.dropWhile isJsSpace).reverse).dropWhile isJsSpace)
      = ((l.dropWhile isJsSpace).reverse.dropWhile isJsSpace).reverse := by
    apply dropWhile_of_head_false
    intro c hc
    have hsuf : ((l.dropWhile isJsSpace).reverse.dropWhile isJsSpace) <:+
        (l.dropWhile isJsSpace).reverse := List.dropWhile_suffix isJsSpace
    have hpre : ((l.dropWhile isJsSpace).reverse.dropWhile isJsSpace).reverse <+:
        (l.dropWhile isJsSpace) := by
      have h2 := hsuf.reverse
      simpa using h2
    rcases hpre with ⟨t, ht⟩
    cases hBr : ((l.dropWhile isJsSpace).reverse.dropWhile isJsSpace).reverse with
    | nil => rw [hBr] at hc; simp at hc
    | cons c0 rest =>
      rw [hBr] at hc ht
      have hc0 : c0 = c := by
        simp only [List.head?_cons, Option.some.injEq] at hc
        exact hc
      subst hc0
      have hhead : (l.dropWhile isJsSpace).head? = some c0 := by
        rw [← ht]; simp
      exact head_dropWhile_false isJsSpace l c0 hhead
  rw [hBfst, List.reverse_reverse,
    dropWhile_dropWhile isJsSpace (l.dropWhile isJsSpace).reverse]

lemma toList_asString (l : List Char) : (l.asString).toList = l := rfl

lemma jsTrim_idem (s : String) : jsTrim (jsTrim s) = jsTrim s := by
  unfold jsTrim
  rw [toList_asString, jsTrimList_idem]


lemma toList_append (s t : String) : (s ++ t).toList = s.toList ++ t.toList := rfl

lemma strTake_toList (s : String) (n : Nat) : (strTake s n).toList = s.toList.take n := rfl

lemma strDrop_toList (s : String) (n : Nat) : (strDrop s n).toList = s.toList.drop n := rfl

lemma strSlice_toList (s : String) (a b : Nat) :
    (strSlice s a b).toList = (s.toList.drop a).take (b - a) := rfl

lemma string_eq_of_toList (s t : String) (h : s.toList = t.toList) : s = t :=
  String.ext h

lemma strTake_length (s : String) (n : Nat) (h : n ≤ s.toList.length) :
    (strTake s n).toList.length = n := by
  rw [strTake_toList]
  simpa using Nat.min_eq_left h

/-- Splicing the slice `[i, j)` back between prefix and suffix restores
the original string. -/
lemma splice_self (s : String) (i j : Nat) (hle : i ≤ j) (_hlen : j ≤ s.toList.length) :
    strTake s i ++ strSlice s i j ++ strDrop s j = s := by
  apply string_eq_of_toList
  rw [toList_append, toList_append, strTake_toList, strSlice_toList, strDrop_toList]
  have hdrop : s.toList.drop j = (s.toList.drop i).drop (j - i) := by
    rw [List.drop_drop, Nat.add_sub_cancel' hle]
  rw [hdrop, List.append_assoc, List.take_append_drop, List.take_append_drop]


/-- Span-key of the dedup set. -/
def rawSpan (m : TSNode) : Nat × Nat := (m.startRow, m.endRow)

/-- Emitted (1-based, context-adjusted) span as a function of a raw key. -/
def adjSpan (lines : List String) (ctx : Nat) (k : Nat × Nat) : Nat × Nat :=
  (k.1 - ctx + 1, min (lines.length - 1) (k.2 + ctx) + 1)

mutual
/-- Accumulator invariant of `_findElementInAST`: the walk appends one
result and one FRESH raw span key per emitted match, the emitted
`(startLine, endLine)` of each new result is the context-adjustment of
its key, and every new key is the raw span of some node of the walked
subtree. -/
theorem findElSpecN (targetName ty : String) (lines : List String) (ctx : Nat) :
    ∀ (node : TSNode) (results : List ExtractResult) (seen : List (Nat × Nat)),
    ∃ l : List (Nat × Nat),
      (findElementInAST node targetName ty lines results seen ctx).2 = seen ++ l ∧
      ((findElementInAST node targetName ty lines results seen ctx).1).map
          (fun r => (r.startLine, r.endLine)) =
        results.map (fun r => (r.startLine, r.endLine)) ++ l.map (adjSpan lines ctx) ∧
      l.Nodup ∧ (∀ k ∈ l, k ∉ seen) ∧
      (∀ k ∈ l, k ∈ (TSNode.allNodes node).map rawSpan)
  | .mk t tx sr sc er ec si ei ks, results, seen => by
    simp only [findElementInAST]
    cases hitem : nodeToOutlineItem (TSNode.mk t tx sr sc er ec si ei ks) lines with
    | none =>
      obtain ⟨l, h1, h2, h3, h4, h5⟩ := findElSpecK targetName ty lines ctx ks results seen
      refine ⟨l, h1, h2, h3, h4, ?_⟩
      intro k hk
      have := h5 k hk
      simp only [TSNode.allNodes, List.map_cons, List.mem_cons]
      exact Or.inr (by simpa [allNodesKids] using this)
    | some item =>
      by_cases hmatch : (item.name = targetName && typeMatchesExtract ty item.type) = true
      · by_cases hseen : seen.contains (sr, er) = true
        · simp only [hmatch, if_true, hseen]
          obtain ⟨l, h1, h2, h3, h4, h5⟩ := findElSpecK targetName ty lines ctx ks results seen
          refine ⟨l, h1, h2, h3, h4, ?_⟩
          intro k hk
          simp only [TSNode.allNodes, List.map_cons, List.mem_cons]
          exact Or.inr (by simpa [allNodesKids] using h5 k hk)
        · simp only [hmatch, if_true, hseen, if_false, Bool.false_eq_true]
          obtain ⟨l, h1, h2, h3, h4, h5⟩ :=
            findElSpecK targetName ty lines ctx ks
              (results ++ [{ type := item.type, name := targetName,
                             location := mkLocation (sr - ctx) (min (lines.length - 1) (er + ctx)),
                             startLine := sr - ctx + 1,
                             endLine := min (lines.length - 1) (er + ctx) + 1,
                             content := jsJoinLines ((lines.drop (sr - ctx)).take
                               (min (lines.length - 1) (er + ctx) + 1 - (sr - ctx))) }])
              (seen ++ [(sr, er)])
          have hnotmem : (sr, er) ∉ seen := by
            intro hmem
            have hc : seen.contains (sr, er) = true := by
              simpa [List.contains] using List.elem_iff.mpr hmem
            exact hseen hc
          refine ⟨(sr, er) :: l, ?_, ?_, ?_, ?_, ?_⟩
          · rw [h1]; simp
          · rw [h2]; simp [adjSpan]
          · refine List.nodup_cons.mpr ⟨?_, h3⟩
            intro hmem
            have := h4 _ hmem
            simp at this
          · intro k hk
            rcases List.mem_cons.mp hk with rfl | hk2
            · exact hnotmem
            · intro hks
              exact (h4 k hk2) (by simp [hks])
          · intro k hk
            rcases List.mem_cons.mp hk with rfl | hk2
            · simp [TSNode.allNodes, rawSpan, TSNode.startRow, TSNode.endRow]
            · simp only [TSNode.allNodes, List.map_cons, List.mem_cons]
              exact Or.inr (by simpa [allNodesKids] using h5 k hk2)
      · simp only [hmatch, Bool.false_eq_true, if_false]
        obtain ⟨l, h1, h2, h3, h4, h5⟩ := findElSpecK targetName ty lines ctx ks results seen
        refine ⟨l, h1, h2, h3, h4, ?_⟩
        intro k hk
        simp only [TSNode.allNodes, List.map_cons, List.mem_cons]
        exact Or.inr (by simpa [allNodesKids] using h5 k hk)

theorem findElSpecK (targetName ty : String) (lines : List String) (ctx : Nat) :
    ∀ (ks : TSKids) (results : List ExtractResult) (seen : List (Nat × Nat)),
    ∃ l : List (Nat × Nat),
      (findElementInKids ks targetName ty lines results seen ctx).2 = seen ++ l ∧
      ((findElementInKids ks targetName ty lines results seen ctx).1).map
          (fun r => (r.startLine, r.endLine)) =
        results.map (fun r => (r.startLine, r.endLine)) ++ l.map (adjSpan lines ctx) ∧
      l.Nodup ∧ (∀ k ∈ l, k ∉ seen) ∧
      (∀ k ∈ l, k ∈ (allNodesKids ks).map rawSpan)
  | .nil, results, seen => by
    refine ⟨[], by simp [findElementInKids], by simp [findElementInKids], by simp, ?_, ?_⟩
    · intro k hk; simp at hk
    · intro k hk; simp at hk
  | .cons f c rest, results, seen => by
    obtain ⟨l1, a1, a2, a3, a4, a5⟩ := findElSpecN targetName ty lines ctx c results seen
    obtain ⟨l2, b1, b2, b3, b4, b5⟩ :=
      findElSpecK targetName ty lines ctx rest
        (findElementInAST c targetName ty lines results seen ctx).1
        (findElementInAST c targetName ty lines results seen ctx).2
    have hunfold : findElementInKids (.cons f c rest) targetName ty lines results seen ctx =
        findElementInKids rest targetName ty lines
          (findElementInAST c targetName ty lines results seen ctx).1
          (findElementInAST c targetName ty lines results seen ctx).2 ctx := rfl
    refine ⟨l1 ++ l2, ?_, ?_, ?_, ?_, ?_⟩
    · rw [hunfold, b1, a1, List.append_assoc]
    · rw [hunfold, b2, a2, List.append_assoc, List.map_append]
    · refine List.nodup_append.mpr ⟨a3, b3, ?_⟩
      intro k hk1 hk2
      have := b4 k hk2
      rw [a1] at this
      exact this (by simp [hk1])
    · intro k hk
      rcases List.mem_append.mp hk with hk1 | hk2
      · exact a4 k hk1
      · intro hks
        have := b4 k hk2
        rw [a1] at this
        exact this (by simp [hks])
    · intro k hk
      simp only [allNodesKids, List.map_append, List.mem_append]
      rcases List.mem_append.mp hk with hk1 | hk2
      · exact Or.inl (a5 k hk1)
      · exact Or.inr (b5 k hk2)
end


lemma collectOutline_eq (n : TSNode) (lines : List String) (d : Nat) :
    collectOutline n lines d =
      match nodeToOutlineItem n lines with
      | some item => { item with depth := some d } :: collectOutlineKids n.kids lines (d + 1)
      | none => collectOutlineKids n.kids lines d := by
  cases n with
  | mk t tx sr sc er ec si ei ks => rfl

lemma findElementNode_eq (n : TSNode) (targetName ty : String) :
    findElementNode n targetName ty =
      match nodeToOutlineItem n [""] with
      | some item =>
        if item.name = targetName && typeMatchesFind ty item.type then some n
        else findElementNodeKids n.kids targetName ty
      | none => findElementNodeKids n.kids targetName ty := by
  cases n with
  | mk t tx sr sc er ec si ei ks => rfl

lemma allNodes_eq (n : TSNode) :
    TSNode.allNodes n = n :: allNodesKids n.kids := by
  cases n with
  | mk t tx sr sc er ec si ei ks => rfl

mutual
theorem collectNoneN (lines : List String) :
    ∀ (n : TSNode) (d : Nat),
      (∀ m ∈ TSNode.allNodes n, nodeToOutlineItem m lines = none) →
      collectOutline n lines d = []
  | .mk t tx sr sc er ec si ei ks, d, h => by
    have hself := h (.mk t tx sr sc er ec si ei ks) (by rw [allNodes_eq]; simp)
    simp only [collectOutline, hself]
    exact collectNoneK lines ks d (fun m hm => h m (by rw [allNodes_eq]; simp [TSNode.kids]; exact Or.inr hm))
theorem collectNoneK (lines : List String) :
    ∀ (ks : TSKids) (d : Nat),
      (∀ m ∈ allNodesKids ks, nodeToOutlineItem m lines = none) →
      collectOutlineKids ks lines d = []
  | .nil, _, _ => rfl
  | .cons f c rest, d, h => by
    simp only [collectOutlineKids]
    rw [collectNoneN lines c d (fun m hm => h m (by simp [allNodesKids]; exact Or.inl hm)),
        collectNoneK lines rest d (fun m hm => h m (by simp [allNodesKids]; exact Or.inr hm))]
    rfl
end

lemma collectOutline_single (n : TSNode) (lines : List String) (d : Nat) (it : OutlineItem)
    (hit : nodeToOutlineItem n lines = some it)
    (hsub : ∀ m ∈ allNodesKids n.kids, nodeToOutlineItem m lines = none) :
    collectOutline n lines d = [{ it with depth := some d }] := by
  rw [collectOutline_eq, hit, collectNoneK lines n.kids (d + 1) hsub]

lemma collectKids_of_decls (lines : List String) :
    ∀ (ks : TSKids) (d : Nat),
      (∀ c ∈ (TSKids.toList ks).map Prod.snd,
        (nodeToOutlineItem c lines).isSome = true ∧
        ∀ m ∈ allNodesKids c.kids, nodeToOutlineItem m lines = none) →
      collectOutlineKids ks lines d =
        ((TSKids.toList ks).map Prod.snd).map
          (fun c => { (nodeToOutlineItem c lines).getD default with depth := some d })
  | .nil, _, _ => rfl
  | .cons f c rest, d, h => by
    have hc := h c (by simp [TSKids.toList])
    obtain ⟨it, hit⟩ := Option.isSome_iff_exists.mp hc.1
    have hrest := collectKids_of_decls lines rest d
      (fun c2 hc2 => h c2 (by simp [TSKids.toList]; exact Or.inr (by simpa using hc2)))
    simp only [collectOutlineKids, TSKids.toList, List.map_cons]
    rw [collectOutline_single c lines d it hit hc.2, hrest, hit]
    simp


lemma replaceElement_some (root : TSNode) (src targetName ty newContent : String) :
    replaceElement (some root) src targetName ty newContent =
      match findElementNode root targetName ty with
      | some node =>
        Except.ok (strTake src node.startIndex ++ newContent ++ strDrop src node.endIndex)
      | none => replaceElementWithRegex src targetName ty newContent := rfl

/-! ### Claim theorems -/

/-- C2 (counterexample): on the AST-failure fallback path, the hit on the
comment line `// calls foo()` is classified `usage`, not `comment` — the
claim "comment on every path" is false as stated: `_simpleClassify`
(the path taken when reading/parsing the file throws) never checks for
comments. -/
theorem C2_counterexample :
    classifyResult (some "javascript") none 1 "// calls foo()" "foo" = "usage" ∧
    simpleClassify "// calls foo()" "foo" = "usage" := by
  constructor
  · decide
  · decide

/-- C2 (amended): when the AST is available (the parse succeeded), a hit
whose trimmed line starts with `//` in a `//`-comment language is
classified `comment` whatever the tree contains; on the AST-failure path
classification is `_simpleClassify` (which can return `usage` for a
comment line, see the counterexample), and an unsupported extension
yields `unknown`. -/
theorem C2_comment_classification
    (lineNum : Nat) (lineContent pattern : String) (tree : TSNode) (language : String)
    (hlang : language ∈ ["javascript", "typescript", "java", "go", "cpp", "c"])
    (hcm : jsStartsWith (jsTrim lineContent) "//" = true) :
    classifyLine lineNum lineContent pattern tree language = "comment" ∧
    classifyResult (some language) (some tree) lineNum lineContent pattern = "comment" ∧
    (∀ (t2 : Option TSNode), classifyResult none t2 lineNum lineContent pattern = "unknown") := by
  have hcontains : (["javascript", "typescript", "java", "go", "cpp", "c"].contains language) = true := by
    simpa [List.contains] using List.elem_iff.mpr hlang
  have hic : isComment (jsTrim lineContent) language = true := by
    unfold isComment
    rw [jsTrim_idem]
    simp only [hcontains, if_true, hcm, Bool.true_or]
  have hcl : classifyLine lineNum lineContent pattern tree language = "comment" := by
    unfold classifyLine
    simp [hic]
  exact ⟨hcl, by unfold classifyResult; exact hcl, fun t2 => rfl⟩

/-- C2 (witness for the amended theorem). -/
theorem C2_comment_classification_witness :
    ("javascript" ∈ ["javascript", "typescript", "java", "go", "cpp", "c"]) ∧
    jsStartsWith (jsTrim "  // calls foo()") "//" = true ∧
    classifyLine 7 "  // calls foo()" "foo" treeAddSub "javascript" = "comment" :=
  ⟨by decide, by decide,
   (C2_comment_classification 7 "  // calls foo()" "foo" treeAddSub "javascript"
     (by decide) (by decide)).1⟩

/-- C3: when `replaceElement` locates a node, the result is exactly the
source before the `startIndex` of the node, then the caller-supplied text,
then the source from `endIndex` on; in particular the prefix before the
node and the suffix after it are byte-for-byte unchanged in the output
(shifted by the length of the new text). -/
theorem C3_replacement_splices_exact_range
    (root n : TSNode) (src targetName ty newContent : String)
    (hfind : findElementNode root targetName ty = some n)
    (hle : n.startIndex ≤ n.endIndex) (hlen : n.endIndex ≤ src.toList.length) :
    replaceElement (some root) src targetName ty newContent =
      Except.ok (strTake src n.startIndex ++ newContent ++ strDrop src n.endIndex) ∧
    strTake (strTake src n.startIndex ++ newContent ++ strDrop src n.endIndex) n.startIndex =
      strTake src n.startIndex ∧
    strDrop (strTake src n.startIndex ++ newContent ++ strDrop src n.endIndex)
        (n.startIndex + newContent.toList.length) = strDrop src n.endIndex := by
  have hstart : n.startIndex ≤ src.toList.length := Nat.le_trans hle hlen
  have hstart2 : n.startIndex ≤ src.length := hstart
  refine ⟨?_, ?_, ?_⟩
  · rw [replaceElement_some, hfind]
  · apply string_eq_of_toList
    rw [strTake_toList, toList_append, toList_append, strTake_toList, List.append_assoc]
    apply List.take_left'
    simp only [List.length_take]
    omega
  · apply string_eq_of_toList
    rw [strDrop_toList, toList_append, toList_append, strTake_toList, strDrop_toList]
    apply List.drop_left'
    simp only [List.length_append, List.length_take]
    omega

/-- C3 (witness): replacing `add` in the two-function source with a
multiplying body yields exactly the source with `add` swapped and `sub`
byte-for-byte untouched. -/
theorem C3_replacement_witness :
    replaceElement (some treeAddSub) srcAddSub "add" "function"
        "function add(a,b)\x7breturn a*b;\x7d" =
      Except.ok "function add(a,b)\x7breturn a*b;\x7d\nfunction sub(a,b)\x7breturn a-b;\x7d" := by
  have h := C3_replacement_splices_exact_range treeAddSub addFun srcAddSub "add" "function"
    "function add(a,b)\x7breturn a*b;\x7d" rfl (by decide) (by decide)
  rw [h.1]
  exact congrArg Except.ok (by decide)

/-- C4: replacing a located element with its own current text returns
the original source verbatim, so the re-parsed outline is that of the
original source. -/
theorem C4_idempotent_replace
    (root n : TSNode) (src targetName ty : String)
    (hfind : findElementNode root targetName ty = some n)
    (hle : n.startIndex ≤ n.endIndex) (hlen : n.endIndex ≤ src.toList.length) :
    replaceElement (some root) src targetName ty (strSlice src n.startIndex n.endIndex) =
      Except.ok src ∧
    getOutline (some root)
        (strTake src n.startIndex ++ strSlice src n.startIndex n.endIndex ++
          strDrop src n.endIndex) =
      getOutline (some root) src := by
  have hsp := splice_self src n.startIndex n.endIndex hle hlen
  constructor
  · rw [replaceElement_some, hfind]
    exact congrArg Except.ok hsp
  · rw [hsp]

/-- C4 (witness): replacing `add` with its own text gives back the
source unchanged. -/
theorem C4_idempotent_witness :
    replaceElement (some treeAddSub) srcAddSub "add" "function"
        (strSlice srcAddSub 0 30) = Except.ok srcAddSub :=
  (C4_idempotent_replace treeAddSub addFun srcAddSub "add" "function"
    rfl (by decide) (by decide)).1

/-- C6: a hit whose line is not a comment or import and whose pattern
disappears once all quoted spans are stripped is classified `string` on
the AST-available path, before any definition/usage decision (the check
precedes the AST lookup). -/
theorem C6_string_literal_classification
    (lineNum : Nat) (lineContent pattern : String) (tree : TSNode) (language : String)
    (hc : isComment (jsTrim lineContent) language = false)
    (hi : isImportLine (jsTrim lineContent) language = false)
    (hs : isInStringLiteral (jsTrim lineContent) pattern = true) :
    classifyLine lineNum lineContent pattern tree language = "string" := by
  unfold classifyLine
  simp [hc, hi, hs]

/-- C6 (witness): `const s = "call foo() here"` with pattern `foo`. -/
theorem C6_string_literal_witness :
    isComment (jsTrim "const s = \"call foo() here\"") "javascript" = false ∧
    isImportLine (jsTrim "const s = \"call foo() here\"") "javascript" = false ∧
    isInStringLiteral (jsTrim "const s = \"call foo() here\"") "foo" = true ∧
    classifyLine 1 "const s = \"call foo() here\"" "foo" treeAddSub "javascript" = "string" :=
  ⟨by decide, by decide, by decide,
   C6_string_literal_classification 1 "const s = \"call foo() here\"" "foo" treeAddSub
     "javascript" (by decide) (by decide) (by decide)⟩

/-- C7: for a language with no registered grammar the outline is the
regex fallback result (total — nothing is thrown), and on the Rust
sample it contains exactly the entries derived from the
`fn`/`struct`/`enum`/`trait`/`impl` line patterns. -/
theorem C7_rust_fallback :
    getOutline none srcRust = getOutlineWithRegex srcRust ∧
    (getOutlineWithRegex srcRust).map (fun i => (i.type, i.name, i.line)) =
      [("function", "main", 1), ("struct", "Point", 2), ("enum", "Color", 3),
       ("trait", "Shape", 4), ("impl", "Shape", 5)] :=
  ⟨rfl, by decide⟩

/-- C9 (counterexample): on `export default class Foo {}` the AST path
reports the top-level declaration `(class, Foo)` (twice, via the export
wrapper) while the regex fallback reports NO entry at all, so the two
paths do not agree on the identity of each top-level declaration. -/
theorem C9_counterexample :
    (getOutline (some treeDefaultClass) srcDefaultClass).map (fun i => (i.type, i.name)) =
      [("class", "Foo"), ("class", "Foo")] ∧
    getOutlineWithRegex srcDefaultClass = [] := by
  constructor
  · decide
  · decide

/-- C9 (amended): on the two-function example of the spec both paths agree on
the name and kind of every top-level declaration. -/
theorem C9_amended_agreement :
    (getOutline (some treeAddSub) srcAddSub).map (fun i => (i.type, i.name)) =
      [("function", "add"), ("function", "sub")] ∧
    (getOutlineWithRegex srcAddSub).map (fun i => (i.type, i.name)) =
      [("function", "add"), ("function", "sub")] := by
  constructor
  · decide
  · decide


lemma findElementInKids_ne_nil (ks : TSKids) (targetName ty : String) (lines : List String)
    (ctx : Nat) (r0 : ExtractResult) (rs : List ExtractResult) (seen : List (Nat × Nat)) :
    (findElementInKids ks targetName ty lines (r0 :: rs) seen ctx).1 ≠ [] := by
  obtain ⟨l, _, h2, _, _, _⟩ := findElSpecK targetName ty lines ctx ks (r0 :: rs) seen
  intro h
  rw [h] at h2
  simp at h2

/-- C5: the kind-compatibility relation of the locators is looser than
equality — a node whose outline classification is `function` OR `method`
is matched by a `kind=function` request, a node classified `type` OR
`interface` by a `kind=type` request, and a request whose kind equals
the classification always matches; this holds for `_findElementNode`
(the walker of replaceElement) and by `_findElementInAST` (the walker
of extractElement). -/
theorem C5_kind_compatibility :
    (∀ (node : TSNode) (target : String) (it : OutlineItem),
        nodeToOutlineItem node [""] = some it → it.name = target →
        (it.type = "function" ∨ it.type = "method") →
        findElementNode node target "function" = some node) ∧
    (∀ (node : TSNode) (target : String) (it : OutlineItem),
        nodeToOutlineItem node [""] = some it → it.name = target →
        (it.type = "type" ∨ it.type = "interface") →
        findElementNode node target "type" = some node) ∧
    (∀ (node : TSNode) (target ty : String) (it : OutlineItem),
        nodeToOutlineItem node [""] = some it → it.name = target → it.type = ty →
        findElementNode node target ty = some node) ∧
    (∀ (node : TSNode) (target : String) (lines : List String) (ctx : Nat) (it : OutlineItem),
        nodeToOutlineItem node lines = some it → it.name = target →
        (it.type = "function" ∨ it.type = "method") →
        (findElementInAST node target "function" lines [] [] ctx).1 ≠ []) := by
  refine ⟨?_, ?_, ?_, ?_⟩
  · intro node target it hit hname hty
    rw [findElementNode_eq, hit]
    have hm : (it.name = target && typeMatchesFind "function" it.type) = true := by
      rcases hty with h | h <;> simp [typeMatchesFind, hname, h]
    simp [hm]
  · intro node target it hit hname hty
    rw [findElementNode_eq, hit]
    have hm : (it.name = target && typeMatchesFind "type" it.type) = true := by
      rcases hty with h | h <;> simp [typeMatchesFind, hname, h]
    simp [hm]
  · intro node target ty it hit hname hty
    rw [findElementNode_eq, hit]
    have hm : (it.name = target && typeMatchesFind ty it.type) = true := by
      simp [typeMatchesFind, hname, hty]
    simp [hm]
  · intro node target lines ctx it hit hname hty
    cases node with
    | mk t tx sr sc er ec si ei ks =>
      have hm : (it.name = target && typeMatchesExtract "function" it.type) = true := by
        rcases hty with h | h <;> simp [typeMatchesExtract, hname, h]
      simp only [findElementInAST, hit, hm, if_true]
      simp only [List.contains, List.elem, List.nil_append]
      exact findElementInKids_ne_nil ks target "function" lines ctx _ [] _

/-- C5 (witness): a `method_definition` node named `m` is matched by a
`kind=function` locate request. -/
theorem C5_kind_compatibility_witness :
    nodeToOutlineItem methodNodeM [""] =
      some { type := "method", name := "m", line := 4, endLine := some 4, signature := "",
             style := none, exported := none, depth := none } ∧
    findElementNode methodNodeM "m" "function" = some methodNodeM :=
  ⟨by decide,
   (C5_kind_compatibility).1 methodNodeM "m"
     { type := "method", name := "m", line := 4, endLine := some 4, signature := "",
       style := none, exported := none, depth := none }
     (by decide) (by decide) (Or.inr (by decide))⟩

set_option maxHeartbeats 1600000 in
/-- C8 (counterexample): a single `extractElement` query CAN return two
results with the same `(startLine, endLine)` pair, already on the AST
path: the dedup key is the RAW node span, and context clamping maps the
distinct raw spans `(0,0)` and `(1,1)` of the two `foo` declarations to
the same emitted pair `(1, 2)` in a 2-line file with `contextLines = 5`. -/
theorem C8_counterexample :
    spansOfOutcome (extractElementFromTree treeDupFoo srcDupFoo "foo" "function" 5) =
      [(1, 2), (1, 2)] := by
  decide

/-- C8 (amended): the AST-path dedup is by raw `(startRow, endRow)` node
span; consequently, with `contextLines = 0` (no clamping) and all node
spans inside the file, the emitted `(startLine, endLine)` pairs of one
query are pairwise distinct. -/
theorem C8_ast_dedup_by_raw_span
    (root : TSNode) (src targetName ty : String)
    (hrows : ∀ m ∈ TSNode.allNodes root, m.endRow ≤ (jsSplitLines src).length - 1) :
    (spansOfOutcome (extractElementFromTree root src targetName ty 0)).Nodup := by
  obtain ⟨l, h1, h2, h3, h4, h5⟩ := findElSpecN targetName ty (jsSplitLines src) 0 root [] []
  have hout : spansOfOutcome (extractElementFromTree root src targetName ty 0) =
      ((findElementInAST root targetName ty (jsSplitLines src) [] [] 0).1).map
        (fun r => (r.startLine, r.endLine)) := by
    unfold extractElementFromTree spansOfOutcome
    by_cases hres : (findElementInAST root targetName ty (jsSplitLines src) [] [] 0).1.isEmpty
    · simp [hres, List.isEmpty_iff.mp hres]
    · simp [hres]
  rw [hout, h2]
  simp only [List.map_nil, List.nil_append]
  refine List.Nodup.map_on ?_ h3
  intro x hx y hy hxy
  have hx2 : x.2 ≤ (jsSplitLines src).length - 1 := by
    obtain ⟨m, hm, hxm⟩ := List.mem_map.mp (h5 x hx)
    rw [← hxm]
    exact hrows m hm
  have hy2 : y.2 ≤ (jsSplitLines src).length - 1 := by
    obtain ⟨m, hm, hym⟩ := List.mem_map.mp (h5 y hy)
    rw [← hym]
    exact hrows m hm
  simp only [adjSpan, Nat.sub_zero, Nat.add_zero, Nat.min_eq_right hx2,
    Nat.min_eq_right hy2, Prod.mk.injEq] at hxy
  have h1' := Nat.succ_injective hxy.1
  have h2' := Nat.succ_injective hxy.2
  exact Prod.ext h1' h2'

/-- C8 (witness for the amended theorem): with `contextLines = 0` the
two same-name declarations yield the distinct pairs `(1,1)` and `(2,2)`. -/
theorem C8_ast_dedup_witness :
    (spansOfOutcome (extractElementFromTree treeDupFoo srcDupFoo "foo" "function" 0)).Nodup :=
  C8_ast_dedup_by_raw_span treeDupFoo srcDupFoo "foo" "function" (by decide)


/-- C1 (counterexample): a source whose two top-level named function
declarations sit on the SAME line gets two `function` entries with equal
`startLine` — the claimed STRICT increase fails (the list is still
sorted ascending). -/
theorem C1_counterexample :
    (getOutline (some treeTwoFnsOneLine) srcTwoFnsOneLine).map OutlineItem.line = [1, 1] ∧
    (∀ it ∈ getOutline (some treeTwoFnsOneLine) srcTwoFnsOneLine, it.type = "function") ∧
    ¬ (getOutline (some treeTwoFnsOneLine) srcTwoFnsOneLine).Pairwise
        (fun a b => a.line < b.line) := by
  refine ⟨by decide, by decide, ?_⟩
  intro h
  rw [show getOutline (some treeTwoFnsOneLine) srcTwoFnsOneLine =
      getOutline (some treeTwoFnsOneLine) srcTwoFnsOneLine from rfl] at h
  have h2 := List.Pairwise.imp (fun hab => hab) h
  revert h2
  decide

/-- C1 (amended): for a tree whose root yields no outline item, whose
top-level children each yield a `function` item at their own start line,
and whose deeper nodes yield nothing ("no other declarations"),
`getOutline` returns exactly one entry per declaration, all of kind
`function`, sorted ascending by `startLine`; the order is STRICTLY
increasing whenever the declarations start on pairwise-distinct rows. -/
theorem C1_function_outline
    (root : TSNode) (src : String)
    (hroot : nodeToOutlineItem root (jsSplitLines src) = none)
    (hdecls : ∀ c ∈ root.children,
        (nodeToOutlineItem c (jsSplitLines src)).map OutlineItem.type = some "function" ∧
        (nodeToOutlineItem c (jsSplitLines src)).map OutlineItem.line = some (c.startRow + 1) ∧
        ∀ m ∈ allNodesKids c.kids, nodeToOutlineItem m (jsSplitLines src) = none) :
    (getOutline (some root) src).length = root.children.length ∧
    (∀ it ∈ getOutline (some root) src, it.type = "function") ∧
    (getOutline (some root) src).Pairwise (fun a b => a.line ≤ b.line) ∧
    ((root.children.map TSNode.startRow).Nodup →
      (getOutline (some root) src).Pairwise (fun a b => a.line < b.line)) := by
  have hget : getOutline (some root) src = sortByLine (collectOutline root (jsSplitLines src) 0) := rfl
  have hL : collectOutline root (jsSplitLines src) 0 =
      root.children.map (fun c =>
        { (nodeToOutlineItem c (jsSplitLines src)).getD default with depth := some 0 }) := by
    rw [collectOutline_eq, hroot]
    apply collectKids_of_decls
    intro c hc
    obtain ⟨h1, _, h3⟩ := hdecls c hc
    refine ⟨?_, h3⟩
    cases hopt : nodeToOutlineItem c (jsSplitLines src) with
    | none => rw [hopt] at h1; exact Option.noConfusion h1
    | some a => rfl
  have hperm : List.Perm (getOutline (some root) src)
      (root.children.map (fun c =>
        { (nodeToOutlineItem c (jsSplitLines src)).getD default with depth := some 0 })) := by
    rw [hget, hL]
    exact sortByLine_perm _
  have htype : ∀ it ∈ getOutline (some root) src, it.type = "function" := by
    intro it hit
    obtain ⟨c, hc, hceq⟩ := List.mem_map.mp (hperm.mem_iff.mp hit)
    obtain ⟨h1, _, _⟩ := hdecls c hc
    cases hopt : nodeToOutlineItem c (jsSplitLines src) with
    | none => rw [hopt] at h1; exact Option.noConfusion h1
    | some a =>
      rw [hopt] at h1
      simp only [Option.map_some', Option.some.injEq] at h1
      rw [← hceq]
      simp [hopt, h1]
  refine ⟨?_, htype, ?_, ?_⟩
  · rw [hperm.length_eq, List.length_map]
  · rw [hget]
    exact sortByLine_sorted _
  · intro hnodup
    apply pairwise_lt_of_le_nodup _ (by rw [hget]; exact sortByLine_sorted _)
    have hmapline : (root.children.map (fun c =>
        { (nodeToOutlineItem c (jsSplitLines src)).getD default with depth := some 0 })).map
          OutlineItem.line = root.children.map (fun c => c.startRow + 1) := by
      rw [List.map_map]
      apply List.map_congr_left
      intro c hc
      obtain ⟨_, h2, _⟩ := hdecls c hc
      cases hopt : nodeToOutlineItem c (jsSplitLines src) with
      | none => rw [hopt] at h2; exact Option.noConfusion h2
      | some a =>
        rw [hopt] at h2
        simp only [Option.map_some', Option.some.injEq] at h2
        simp [hopt, h2]
    have hnodup2 : (root.children.map (fun c => c.startRow + 1)).Nodup := by
      have hmm : root.children.map (fun c => c.startRow + 1) =
          (root.children.map TSNode.startRow).map (fun n => n + 1) := by
        rw [List.map_map]
        rfl
      rw [hmm]
      exact List.Nodup.map (fun a b h => Nat.succ_injective h) hnodup
    have := hperm.map OutlineItem.line
    rw [hmapline] at this
    exact this.nodup_iff.mpr hnodup2

/-- C1 (witness for the amended theorem): on the two-line two-function
source the outline has one `function` entry per declaration with
strictly increasing lines. -/
theorem C1_function_outline_witness :
    (getOutline (some treeAddSub) srcAddSub).length = treeAddSub.children.length ∧
    (getOutline (some treeAddSub) srcAddSub).Pairwise (fun a b => a.line < b.line) := by
  have h := C1_function_outline treeAddSub srcAddSub (by decide) (by decide)
  exact ⟨h.1, h.2.2.2 (by decide)⟩


def exportKwNode : TSNode := nd srcExportFn "export" 0 0 0 6 0 6 []

def itExportFoo : OutlineItem :=
  { type := "function", name := "foo", line := 1, endLine := some 1,
    signature := "export function foo() \x7b\x7d", style := none,
    exported := none, depth := none }

/-- C10: an export statement wrapping a declaration produces TWO outline
entries for the one declaration: `_collectOutlineFromAST` pushes the
item derived from the `export_statement` node (flagged `exported` and
carrying the start line of the export statement) and then, because traversal
recurses into all children, pushes the own item of the wrapped declaration
again (without the flag); shown generally for `export <declaration>`
wrappers and concretely (through `getOutline`, sort included) for
`export function foo() {}` and `export const foo = () => {}`. -/
theorem C10_export_duplication
    (sr sc er ec si ei : Nat) (tx : String) (kw d : TSNode)
    (lines : List String) (depth : Nat) (it : OutlineItem)
    (hkw : jsIncludes kw.ty "declaration" = false)
    (hd : d.ty = "function_declaration")
    (hit : nodeToOutlineItem d lines = some it) :
    (collectOutline (TSNode.mk "export_statement" tx sr sc er ec si ei
        (kidsOf [(none, kw), (some "declaration", d)])) lines depth =
      { it with exported := some true, line := sr + 1, depth := some depth } ::
        (collectOutline kw lines (depth + 1) ++ collectOutline d lines (depth + 1)) ∧
      collectOutline d lines (depth + 1) =
        { it with depth := some (depth + 1) } :: collectOutlineKids d.kids lines (depth + 2)) ∧
    (getOutline (some treeExportFn) srcExportFn).map
        (fun i => (i.name, i.type, i.line, i.exported)) =
      [("foo", "function", 1, some true), ("foo", "function", 1, none)] ∧
    (getOutline (some treeExportArrow) srcExportArrow).map
        (fun i => (i.name, i.type, i.line, i.exported)) =
      [("foo", "function", 1, some true), ("foo", "function", 1, none)] := by
  refine ⟨⟨?_, ?_⟩, by decide, by decide⟩
  · have hkw1 : ¬ (kw.ty = "lexical_declaration" ∨ kw.ty = "variable_declaration") := by
      rintro (h | h) <;> rw [h] at hkw <;> exact absurd hkw (by decide)
    have hd1 : ¬ (d.ty = "lexical_declaration" ∨ d.ty = "variable_declaration") := by
      rw [hd]; rintro (h | h) <;> simp at h
    have hdinc : jsIncludes d.ty "declaration" = true := by rw [hd]; decide
    have hscan : ∀ lc : String,
        exportScanKids (kidsOf [(none, kw), (some "declaration", d)]) lines (sr + 1) (er + 1) lc =
          some { it with exported := some true, line := sr + 1 } := by
      intro lc
      simp only [kidsOf, exportScanKids]
      simp [hkw1, hkw, hd1, hdinc, hit]
    have hexp : nodeToOutlineItem (TSNode.mk "export_statement" tx sr sc er ec si ei
        (kidsOf [(none, kw), (some "declaration", d)])) lines =
        some { it with exported := some true, line := sr + 1 } := by
      rw [show nodeToOutlineItem (TSNode.mk "export_statement" tx sr sc er ec si ei
          (kidsOf [(none, kw), (some "declaration", d)])) lines =
          (match exportScanKids (kidsOf [(none, kw), (some "declaration", d)]) lines (sr + 1)
              (er + 1) ((lines.get? sr).getD "") with
           | some item => some item
           | none =>
             match (TSNode.mk "export_statement" tx sr sc er ec si ei
                 (kidsOf [(none, kw), (some "declaration", d)])).children.find?
                 (fun ch => ch.ty = "identifier") with
             | some defaultNode =>
               if jsIncludes ((lines.get? sr).getD "") "export default" then
                 some { type := "export", name := defaultNode.text, line := sr + 1,
                        endLine := some (er + 1),
                        signature := jsTrim ((lines.get? sr).getD ""),
                        style := some "default", exported := none, depth := none }
               else none
             | none => none) from rfl]
      rw [hscan]
    rw [collectOutline_eq, hexp]
    simp [TSNode.kids, kidsOf, collectOutlineKids]
  · rw [collectOutline_eq, hit]

/-- C10 (witness): the general part instantiated on the real tree of
`export function foo() {}`. -/
theorem C10_export_duplication_witness :
    (collectOutline (TSNode.mk "export_statement" (strSlice srcExportFn 0 24) 0 0 0 24 0 24
        (kidsOf [(none, exportKwNode), (some "declaration", exportFnDecl)]))
      (jsSplitLines srcExportFn) 0).map (fun i => (i.name, i.exported)) =
      [("foo", some true), ("foo", none)] := by
  have h := C10_export_duplication 0 0 0 24 0 24 (strSlice srcExportFn 0 24)
    exportKwNode exportFnDecl (jsSplitLines srcExportFn) 0 itExportFoo
    (by decide) (by decide) (by decide)
  rw [h.1.1, h.1.2]
  decide

